import Mathlib

/-!
Shallow embedding of `standardize_products_main_automated_restart_template.py`:
the resumable product-standardization pipeline (shade normalizer, candidate
selector, oracle adapter, per-record persistence, non-match aggregation).

JSON values are modelled by `Val`; Python dicts by association lists with
unique keys (`Dict`); the external classification oracle by a function
`OracleReq → Except Unit String` where `Except.error` models an exception
raised anywhere inside the adapter's `try` block.  Strings are ASCII in the
data this program consumes; Python's `str.strip` / `str.lower` / `\d` are
embedded via `Char.isWhitespace` / `Char.toLower` / `Char.isDigit`.
-/

/-- A JSON scalar as the program manipulates it: strings, integers, `None`. -/
inductive Val where
  | str (s : String)
  | int (n : Int)
  | none
deriving DecidableEq

/-- Python truthiness for the values above (`if not shade`, `if brand_match`). -/
def pyTruthy : Val → Bool
  | Val.str s => s != ""
  | Val.int n => n != 0
  | Val.none => false

/-- Python `str(v)` as used by the f-string in `get_item_key`. -/
def pyStr : Val → String
  | Val.str s => s
  | Val.int n => toString n
  | Val.none => "None"

/-- Python `v == s` where `s` is a `str` (used for `p['brand'] == brand`):
equality holds only when `v` is a string with the same contents. -/
def pyEqStrVal (s : String) (v : Val) : Bool :=
  match v with
  | Val.str t => s == t
  | _ => false

/-- A Python dict with string keys, as an association list (keys unique). -/
abbrev Dict := List (String × Val)

/-- `d[k]` / `d.get(k)` returning the stored value when present. -/
def Dict.get? (d : Dict) (k : String) : Option Val :=
  (List.find? (fun kv => kv.1 == k) d).map Prod.snd

/-- Python `d.get(k, default)`. -/
def Dict.getD (d : Dict) (k : String) (v : Val) : Val :=
  (d.get? k).getD v

/-- Python `d.get(k, '')` for fields the program treats as strings
(`product_line_raw_examples`, `shade_raw_examples`); the data records hold
strings under these keys whenever they are present. -/
def Dict.getStr (d : Dict) (k : String) : String :=
  match d.get? k with
  | some (Val.str s) => s
  | _ => ""

/-- The dict-literal update `{**d, k: v}`: overwrites `k` in place when
present, otherwise appends it (Python dicts preserve insertion order). -/
def Dict.set (d : Dict) (k : String) (v : Val) : Dict :=
  if List.any d (fun kv => kv.1 == k) then
    List.map (fun kv => if kv.1 == k then (k, v) else kv) d
  else
    List.append d [(k, v)]

/-! ### Shade normalizer (source lines 24–39) -/

/-- Python `s.replace(pat, "")` at the character-list level, with structural
fuel (one unit per character examined): removes all non-overlapping
occurrences of `pat`, scanning left to right. -/
def removeAllF (pat : List Char) : Nat → List Char → List Char
  | _, [] => []
  | 0, l => l
  | fuel + 1, c :: cs =>
    if pat ≠ [] ∧ pat.isPrefixOf (c :: cs) then
      removeAllF pat fuel ((c :: cs).drop pat.length)
    else
      c :: removeAllF pat fuel cs

/-- Python `s.replace(pat, "")`: the fuel `cs.length` always suffices. -/
def removeAll (pat : List Char) (cs : List Char) : List Char :=
  removeAllF pat cs.length cs

/-- Python `s.strip()` at the character-list level (ASCII whitespace). -/
def trimList (cs : List Char) : List Char :=
  ((cs.dropWhile Char.isWhitespace).reverse.dropWhile Char.isWhitespace).reverse

/-- Python `s.strip()` on strings (ASCII whitespace). -/
def pyStrip (s : String) : String := String.mk (trimList s.data)

/-- Python `s.lower()` on the ASCII strings this program handles. -/
def pyLower (s : String) : String := String.mk (s.data.map Char.toLower)

/-- `normalize_shade` (lines 24–30): falsy input gives `""`; otherwise strip,
remove every occurrence of `"No."`, `"no."` and `"#"`, and strip again. -/
def normalize_shade (shade : Val) : String :=
  if !pyTruthy shade then ""
  else
    let s0 := trimList (pyStr shade).data
    let s1 := removeAll "No.".data s0
    let s2 := removeAll "no.".data s1
    let s3 := removeAll "#".data s2
    String.mk (trimList s3)

/-- The greedy match of the regex `^\d+\.?\d*` on a character list, or `none`
when the list does not start with a digit.  (`\d+` takes the maximal digit
run; `\.?` takes a following dot when present; `\d*` takes the maximal digit
run after it — no backtracking arises for this pattern.) -/
def extractNumList (cs : List Char) : Option (List Char) :=
  let ds := cs.takeWhile Char.isDigit
  if ds.isEmpty then none
  else
    match cs.drop ds.length with
    | '.' :: rest => some (ds ++ '.' :: rest.takeWhile Char.isDigit)
    | _ => some ds

/-- `extract_shade_number` (lines 32–39): strip, then return the match of
`re.search(r'^\d+\.?\d*', s)` or `None`. -/
def extract_shade_number (shade : String) : Option String :=
  (extractNumList (pyStrip shade).data).map String.mk

/-- Whether a character list matches the tail of the pattern `\d+\.?\d*`
after its first (digit) character: digits, then optionally a dot followed by
digits only. -/
def patTail : List Char → Bool
  | [] => true
  | c :: rest => if c == '.' then rest.all Char.isDigit else c.isDigit && patTail rest

/-- Whether a character list matches the full pattern `\d+\.?\d*` — one or
more digits optionally followed by a dot and further digits.  Used to state
what a "leading number" is, independently of `extractNumList`. -/
def isPat : List Char → Bool
  | [] => false
  | c :: rest => c.isDigit && patTail rest

/-! ### Catalog and candidate selector (source lines 41–82) -/

/-- One entry of `catalog['products']`. -/
structure CatalogEntry where
  brand : String
  product_line : String
  shades : List String
deriving DecidableEq

/-- The catalog object: `{"products": [...]}`. -/
structure Catalog where
  products : List CatalogEntry
deriving DecidableEq

/-- The per-shade comparison of the inner loop (lines 62–73): normalized
strings equal case-insensitively, or both extracted numbers present and
equal.  (An extracted number is never the empty string, so Python truthiness
of the match coincides with presence.) -/
def shade_entry_match (raw_normalized : String) (raw_number : Option String)
    (sh : String) : Bool :=
  let shade_normalized := normalize_shade (Val.str sh)
  let shade_number := extract_shade_number shade_normalized
  (pyLower shade_normalized == pyLower raw_normalized) ||
    (match raw_number, shade_number with
     | some a, some b => a == b
     | _, _ => false)

/-- Result of candidate selection: an early status (lines 43–52) or the
candidate product-line list passed to the oracle (lines 54–82). -/
inductive SelectResult where
  | early (status : String)
  | cands (cs : List String)
deriving DecidableEq

/-- Candidate selection as performed by `ai_match_product` before the oracle
call (lines 43–82).  The per-entry `break` collects each entry whose shade
list contains a matching shade, preserving entry order. -/
def select_candidates (raw_product : String) (brand : Val) (raw_shade : String)
    (catalog : Catalog) : SelectResult :=
  if raw_product == "" || !pyTruthy brand then
    SelectResult.early (if !pyTruthy brand then "no_brand" else "empty_input")
  else
    let products_list := catalog.products.filter (fun p => pyEqStrVal p.brand brand)
    if products_list.isEmpty then SelectResult.early "brand_has_no_products"
    else
      SelectResult.cands
        (if raw_shade != "" then
          let raw_normalized := normalize_shade (Val.str raw_shade)
          let raw_number := extract_shade_number raw_normalized
          let valid_products :=
            (products_list.filter
              (fun p => p.shades.any (shade_entry_match raw_normalized raw_number))).map
              (fun p => p.product_line)
          if !valid_products.isEmpty then valid_products
          else products_list.map (fun p => p.product_line)
        else products_list.map (fun p => p.product_line))

/-- The per-entry shade-match condition as the C6 claim words it: some shade
of the entry matches the raw shade, by case-insensitive equality of the
normalized strings or by equality of the extracted leading numbers (both
present).  Stated independently of `shade_entry_match` for comparison. -/
def claimEntryMatches (raw_shade : String) (p : CatalogEntry) : Bool :=
  p.shades.any (fun sh =>
    (pyLower (normalize_shade (Val.str sh)) ==
      pyLower (normalize_shade (Val.str raw_shade))) ||
    (match extract_shade_number (normalize_shade (Val.str raw_shade)),
           extract_shade_number (normalize_shade (Val.str sh)) with
     | some a, some b => a == b
     | _, _ => false))

/-! ### Oracle adapter (source lines 84–123) -/

/-- The data embedded in the prompt of lines 84–100: raw product, brand, and
the newline-joined candidate list. -/
structure OracleReq where
  raw_product : String
  brand : Val
  candidates : List String
deriving DecidableEq

/-- The external oracle: one blocking call per request; `Except.error`
models an exception raised during the call (transport failure). -/
def Oracle := OracleReq → Except Unit String

/-- `ai_match_product` (lines 41–123) instrumented with the list of oracle
requests it issues (empty on the early returns, a single request otherwise).
The response is stripped (line 111); `"NONE"` maps to `ai_returned_none`,
a response not in the candidate list to `ai_hallucinated`, and a listed
response to `(match, 90, "success")`; an exception inside the `try` block
maps to `(None, 0, "api_error")` (lines 102–123). -/
def ai_match_productT (raw_product : String) (brand : Val) (raw_shade : String)
    (catalog : Catalog) (oracle : Oracle) :
    (Option String × Nat × String) × List OracleReq :=
  match select_candidates raw_product brand raw_shade catalog with
  | SelectResult.early s => ((none, 0, s), [])
  | SelectResult.cands products_to_match =>
    let req : OracleReq := ⟨raw_product, brand, products_to_match⟩
    match oracle req with
    | Except.error _ => ((none, 0, "api_error"), [req])
    | Except.ok response =>
      let m := pyStrip response
      if m == "NONE" then ((none, 0, "ai_returned_none"), [req])
      else if !(products_to_match.contains m) then ((none, 0, "ai_hallucinated"), [req])
      else ((some m, 90, "success"), [req])

/-- The value `ai_match_product` returns to the pipeline. -/
def ai_match_product (raw_product : String) (brand : Val) (raw_shade : String)
    (catalog : Catalog) (oracle : Oracle) : Option String × Nat × String :=
  (ai_match_productT raw_product brand raw_shade catalog oracle).1

/-! ### Record key and per-record processing (source lines 125–131, 238–271) -/

/-- `get_item_key` (lines 125–131): `f"{vid}|{brand}|{product}|{shade}"`. -/
def get_item_key (item : Dict) : String :=
  pyStr (item.getD "canonical_video_id" (Val.str "")) ++ "|" ++
  pyStr (item.getD "brand_raw_examples" (Val.str "")) ++ "|" ++
  pyStr (item.getD "product_line_raw_examples" (Val.str "")) ++ "|" ++
  pyStr (item.getD "shade_raw_examples" (Val.str ""))

/-- Lift a match result to the stored JSON value (`None` or the string). -/
def optStrVal : Option String → Val
  | none => Val.none
  | some s => Val.str s

/-- The `new_item` construction of lines 262–268:
`{**item, 'product_line_standardized': ..., 'product_standardized_score': ...,
'product_match_status': ...}`. -/
def annotate (item : Dict) (r : Option String × Nat × String) : Dict :=
  ((item.set "product_line_standardized" (optStrVal r.1)).set
      "product_standardized_score" (Val.int (Int.ofNat r.2.1))).set
    "product_match_status" (Val.str r.2.2)

/-- The per-record decision of lines 242–258: call the adapter when both a
standardized brand and a non-empty stripped raw product are present,
otherwise assign the early status directly.  Returns the `(match, score,
status)` triple together with the oracle requests issued. -/
def item_result (catalog : Catalog) (oracle : Oracle) (item : Dict) :
    (Option String × Nat × String) × List OracleReq :=
  let brand_match := item.getD "brand_standardized" Val.none
  let raw_product := pyStrip (item.getStr "product_line_raw_examples")
  let raw_shade := pyStrip (item.getStr "shade_raw_examples")
  if pyTruthy brand_match && raw_product != "" then
    ai_match_productT raw_product brand_match raw_shade catalog oracle
  else
    ((none, 0, if !pyTruthy brand_match then "no_brand" else "empty_input"), [])

/-- The annotated record a processed item produces (lines 242–268). -/
def annotate_item (catalog : Catalog) (oracle : Oracle) (item : Dict) : Dict :=
  annotate item (item_result catalog oracle item).1

/-! ### Non-match aggregation and persistence (source lines 193–236) -/

/-- The aggregation key of line 209: `(brand, raw_product, raw_shade, status)`
where `brand` and `status` are the stored values and the raw strings are
stripped. -/
def NMKey := Val × String × String × Val
deriving DecidableEq

/-- `non_match_products[key] = non_match_products.get(key, 0) + 1`: bump the
count of `k`, preserving first-occurrence order (Python dicts preserve
insertion order). -/
def bump (k : NMKey) : List (NMKey × Nat) → List (NMKey × Nat)
  | [] => [(k, 1)]
  | (k', c) :: rest => if k' = k then (k', c + 1) :: rest else (k', c) :: bump k rest

/-- Lines 200–210: fold over the accumulator collecting counts for records
with a truthy `brand_standardized`, a falsy `product_line_standardized`, and
a non-empty stripped raw product. -/
def collect_non_matches (standardized : List Dict) : List (NMKey × Nat) :=
  standardized.foldl
    (fun acc item =>
      if pyTruthy (item.getD "brand_standardized" Val.none) &&
         !pyTruthy (item.getD "product_line_standardized" Val.none) then
        let brand := item.getD "brand_standardized" Val.none
        let raw_product := pyStrip (item.getStr "product_line_raw_examples")
        let raw_shade := pyStrip (item.getStr "shade_raw_examples")
        let status := item.getD "product_match_status" (Val.str "unknown")
        if raw_product != "" then bump (brand, raw_product, raw_shade, status) acc
        else acc
      else acc)
    []

/-- Stable insertion of one counted key into a list sorted by count
descending: it goes after every element with a count ≥ its own. -/
def insertDesc (x : NMKey × Nat) : List (NMKey × Nat) → List (NMKey × Nat)
  | [] => [x]
  | y :: ys => if y.2 < x.2 then x :: y :: ys else y :: insertDesc x ys

/-- Python `sorted(items, key=lambda x: x[1], reverse=True)`: stable,
descending by count. -/
def sortDesc : List (NMKey × Nat) → List (NMKey × Nat)
  | [] => []
  | x :: xs => insertDesc x (sortDesc xs)

/-- One row of the persisted non-match report (lines 213–223). -/
structure NonMatchRow where
  brand : Val
  product_raw : String
  shade_raw : String
  reason : Val
  count : Nat
  product_line_standardized : Option String
deriving DecidableEq

/-- Build the report rows from the sorted counts (lines 213–223). -/
def nonMatchRows (counts : List (NMKey × Nat)) : List NonMatchRow :=
  (sortDesc counts).map
    (fun kc => ⟨kc.1.1, kc.1.2.1, kc.1.2.2.1, kc.1.2.2.2, kc.2, none⟩)

/-- The checkpoint contents relevant to resume (lines 228–234); the
`last_updated` wall-clock timestamp is not modelled. -/
structure CheckpointData where
  standardized_path : String
  non_matches_path : String
deriving DecidableEq

/-- What one call to `save_all_files` writes: the full accumulator, the
non-match report (absent when the aggregation is empty, lines 212–225), and
the checkpoint pointer. -/
structure SaveSnapshot where
  standardizedFile : List Dict
  nonMatchFile : Option (List NonMatchRow)
  checkpoint : CheckpointData
deriving DecidableEq

/-- `save_all_files` (lines 193–236) as a pure description of the files it
writes for a given accumulator. -/
def save_all_files (output_file non_match_file : String)
    (standardized : List Dict) : SaveSnapshot :=
  let counts := collect_non_matches standardized
  { standardizedFile := standardized
    nonMatchFile := if counts.isEmpty then none else some (nonMatchRows counts)
    checkpoint := ⟨output_file, non_match_file⟩ }

/-! ### The resumable pipeline (source lines 133–275) -/

/-- The run state threaded through the loop of lines 238–275, instrumented
with the observable effects: `items_processed` records each item handled by
an iteration, `trace` each oracle request together with the item being
processed when it was issued, and `saves` the contents written by each call
to `save_all_files`. -/
structure RunState where
  standardized : List Dict
  processed_keys : List String
  ai_calls : Nat
  errors : Nat
  skipped : Nat
  items_processed : List Dict
  trace : List (Dict × OracleReq)
  saves : List SaveSnapshot

/-- One iteration of the loop (lines 238–275): decide, annotate, append,
record the key, and save all files.  The `except` branch of lines 253–256 is
unreachable here because the embedded adapter is total, so `errors` never
increments. -/
def process_item (catalog : Catalog) (oracle : Oracle)
    (output_file non_match_file : String) (st : RunState) (item : Dict) :
    RunState :=
  let brand_match := item.getD "brand_standardized" Val.none
  let raw_product := pyStrip (item.getStr "product_line_raw_examples")
  let r := item_result catalog oracle item
  let new_item := annotate item r.1
  let standardized' := st.standardized ++ [new_item]
  { standardized := standardized'
    processed_keys := st.processed_keys ++ [get_item_key item]
    ai_calls := st.ai_calls + (if pyTruthy brand_match && raw_product != "" then 1 else 0)
    errors := st.errors
    skipped := st.skipped + (if !pyTruthy brand_match then 1 else 0)
    items_processed := st.items_processed ++ [item]
    trace := st.trace ++ r.2.map (fun c => (item, c))
    saves := st.saves ++ [save_all_files output_file non_match_file standardized'] }

/-- The loop over `items_to_process`. -/
def run_items (catalog : Catalog) (oracle : Oracle)
    (output_file non_match_file : String) (st : RunState) (items : List Dict) :
    RunState :=
  items.foldl (process_item catalog oracle output_file non_match_file) st

/-- `standardize_products` (lines 133–275).  `prior = some xs` models a
checkpoint whose referenced output file exists and holds `xs`: the prior
accumulator is reloaded and the processed-key set derived from it (lines
151–169); `prior = none` models a fresh session.  The output paths come from
the checkpoint or the fresh timestamp (lines 172–176) and are passed in
here.  Line 179 filters the input once against the loaded keys; the loop
then processes every remaining item in order. -/
def standardize_products (data : List Dict) (catalog : Catalog) (oracle : Oracle)
    (prior : Option (List Dict)) (output_file non_match_file : String) : RunState :=
  let standardized0 := prior.getD []
  let processed_keys0 := standardized0.map get_item_key
  let items_to_process :=
    data.filter (fun it => !(processed_keys0.contains (get_item_key it)))
  run_items catalog oracle output_file non_match_file
    ⟨standardized0, processed_keys0, 0, 0, 0, [], [], []⟩ items_to_process

/-! ### Concrete data for witnesses and counterexamples -/

/-- A two-entry catalog for brand `"B"`. -/
def exCatalog : Catalog :=
  ⟨[⟨"B", "Line1", ["128 Warm"]⟩, ⟨"B", "Line2", ["5"]⟩]⟩

/-- An oracle that always answers `"Line1"`. -/
def exOracleOk : Oracle := fun _ => Except.ok "Line1"

/-- An oracle whose every call raises. -/
def exOracleFail : Oracle := fun _ => Except.error ()

/-- An input record for brand `"B"`, raw product `"raw p"`, shade `"128"`. -/
def exItem (vid : String) : Dict :=
  [("canonical_video_id", Val.str vid),
   ("brand_standardized", Val.str "B"),
   ("product_line_raw_examples", Val.str "raw p"),
   ("shade_raw_examples", Val.str "128")]

/-- A one-record accumulator whose record is an unresolved non-match. -/
def exNonMatchList : List Dict :=
  [[("brand_standardized", Val.str "B"),
    ("product_line_raw_examples", Val.str "p"),
    ("product_match_status", Val.str "ai_returned_none")]]

/-! ## Helper lemmas -/

theorem removeAllF_nil (pat : List Char) (fuel : Nat) :
    removeAllF pat fuel [] = [] := by
  cases fuel <;> rfl

theorem removeAllF_congr (pat : List Char) :
    ∀ (f1 : Nat) (cs : List Char) (f2 : Nat), cs.length ≤ f1 → cs.length ≤ f2 →
      removeAllF pat f1 cs = removeAllF pat f2 cs := by
  intro f1
  induction f1 with
  | zero =>
    intro cs f2 h1 _
    have : cs = [] := List.eq_nil_of_length_eq_zero (Nat.le_zero.mp h1)
    subst this
    rw [removeAllF_nil, removeAllF_nil]
  | succ f ih =>
    intro cs f2 h1 h2
    cases cs with
    | nil => rw [removeAllF_nil, removeAllF_nil]
    | cons c cs =>
      cases f2 with
      | zero => simp at h2
      | succ f' =>
        show (if pat ≠ [] ∧ pat.isPrefixOf (c :: cs) then
                removeAllF pat f ((c :: cs).drop pat.length)
              else c :: removeAllF pat f cs) =
             (if pat ≠ [] ∧ pat.isPrefixOf (c :: cs) then
                removeAllF pat f' ((c :: cs).drop pat.length)
              else c :: removeAllF pat f' cs)
        split
        · rename_i h
          have hp : 1 ≤ pat.length := by
            cases hpat : pat with
            | nil => exact absurd hpat h.1
            | cons a t => simp
          simp only [List.length_cons] at h1 h2
          have hl : ((c :: cs).drop pat.length).length ≤ f := by
            simp only [List.length_drop, List.length_cons]
            omega
          have hl2 : ((c :: cs).drop pat.length).length ≤ f' := by
            simp only [List.length_drop, List.length_cons]
            omega
          exact ih _ _ hl hl2
        · have hl : cs.length ≤ f := Nat.lt_succ_iff.mp h1
          have hl2 : cs.length ≤ f' := Nat.lt_succ_iff.mp h2
          exact congrArg (c :: ·) (ih _ _ hl hl2)

theorem removeAll_cons (pat : List Char) (c : Char) (cs : List Char) :
    removeAll pat (c :: cs) =
      if pat ≠ [] ∧ pat.isPrefixOf (c :: cs) then
        removeAll pat ((c :: cs).drop pat.length)
      else c :: removeAll pat cs := by
  show (if pat ≠ [] ∧ pat.isPrefixOf (c :: cs) then
          removeAllF pat cs.length ((c :: cs).drop pat.length)
        else c :: removeAllF pat cs.length cs) = _
  split
  · rename_i h
    have hp : 1 ≤ pat.length := by
      cases hpat : pat with
      | nil => exact absurd hpat h.1
      | cons a t => simp
    have hl : ((c :: cs).drop pat.length).length ≤ cs.length := by
      simp only [List.length_drop, List.length_cons]
      omega
    exact removeAllF_congr pat cs.length _ _ hl (Nat.le_refl _)
  · rfl

theorem mem_of_mem_removeAll {a : Char} (pat : List Char) (cs : List Char) :
    a ∈ removeAll pat cs → a ∈ cs := by
  suffices h : ∀ (fuel : Nat) (l : List Char), a ∈ removeAllF pat fuel l → a ∈ l from
    h cs.length cs
  intro fuel
  induction fuel with
  | zero =>
    intro l
    cases l with
    | nil => exact fun h => h
    | cons c l => exact fun h => h
  | succ f ih =>
    intro l
    cases l with
    | nil => exact fun h => h
    | cons c l =>
      show a ∈ (if pat ≠ [] ∧ pat.isPrefixOf (c :: l) then
                  removeAllF pat f ((c :: l).drop pat.length)
                else c :: removeAllF pat f l) → _
      split
      · intro hm
        exact List.mem_of_mem_drop (ih _ hm)
      · intro hm
        rcases List.mem_cons.mp hm with h1 | h2
        · exact h1 ▸ List.mem_cons_self c l
        · exact List.mem_cons_of_mem c (ih _ h2)

theorem not_mem_removeAll_single (a : Char) (cs : List Char) :
    a ∉ removeAll [a] cs := by
  suffices h : ∀ (fuel : Nat) (l : List Char), a ∉ removeAllF [a] fuel l ∨ fuel < l.length by
    rcases h cs.length cs with h1 | h1
    · exact h1
    · exact absurd h1 (Nat.lt_irrefl _)
  intro fuel
  induction fuel with
  | zero =>
    intro l
    cases l with
    | nil => exact Or.inl (by rw [removeAllF_nil]; exact List.not_mem_nil a)
    | cons c l => exact Or.inr (Nat.succ_pos _)
  | succ f ih =>
    intro l
    cases l with
    | nil => exact Or.inl (by rw [removeAllF_nil]; exact List.not_mem_nil a)
    | cons c l =>
      show a ∉ (if [a] ≠ [] ∧ [a].isPrefixOf (c :: l) then
                  removeAllF [a] f ((c :: l).drop 1)
                else c :: removeAllF [a] f l) ∨ _
      split
      · rename_i h
        rcases ih l with h1 | h1
        · exact Or.inl (by simpa using h1)
        · exact Or.inr (by simpa using Nat.succ_lt_succ h1)
      · rename_i h
        rcases ih l with h1 | h1
        · refine Or.inl ?_
          intro hm
          rcases List.mem_cons.mp hm with hac | hmem
          · apply h
            refine ⟨by simp, ?_⟩
            subst hac
            simp [List.isPrefixOf]
          · exact h1 hmem
        · exact Or.inr (by simpa using Nat.succ_lt_succ h1)

theorem mem_of_mem_trimList {a : Char} (cs : List Char) :
    a ∈ trimList cs → a ∈ cs := by
  intro h
  unfold trimList at h
  rw [List.mem_reverse] at h
  have h2 := (List.dropWhile_sublist Char.isWhitespace).subset h
  rw [List.mem_reverse] at h2
  exact (List.dropWhile_sublist Char.isWhitespace).subset h2

/-- **C7** (confirmed): `normalize_shade` trims surrounding whitespace,
removes the literal substrings `"No."`, `"no."` and `"#"` wherever they occur
in the string (not only at its start), and returns the empty string on
null/absent (falsy) input; in particular `normalize("No. 12") = "12"`,
`normalize("#5.5") = "5.5"` and `normalize(None) = ""`, and no output ever
contains a `'#'`. -/
theorem spec_c7_shade_normalization :
    (∀ v : Val, pyTruthy v = false → normalize_shade v = "") ∧
    normalize_shade Val.none = "" ∧
    normalize_shade (Val.str "No. 12") = "12" ∧
    normalize_shade (Val.str "#5.5") = "5.5" ∧
    normalize_shade (Val.str "  x  ") = "x" ∧
    normalize_shade (Val.str "a#b") = "ab" ∧
    normalize_shade (Val.str "1 No. 2") = "1  2" ∧
    ∀ s : String, ((normalize_shade (Val.str s)).data.contains '#') = false := by
  refine ⟨?_, by decide, by decide, by decide, by decide, by decide, by decide, ?_⟩
  · intro v h
    simp [normalize_shade, h]
  · intro s
    by_cases h : pyTruthy (Val.str s) = true
    · rw [Bool.eq_false_iff]
      intro hc
      have hm : '#' ∈ (normalize_shade (Val.str s)).data := by
        rcases List.elem_eq_true_of_mem (List.mem_of_elem_eq_true hc) with _
        exact List.mem_of_elem_eq_true hc
      rw [normalize_shade] at hm
      simp only [h, Bool.not_true, Bool.false_eq_true, if_false] at hm
      have hm2 := mem_of_mem_trimList _ hm
      exact not_mem_removeAll_single '#' _ (by simpa using hm2)
    · rw [Bool.not_eq_true] at h
      simp [normalize_shade, h]

/-- Witness for C7 at concrete inputs. -/
theorem spec_c7_witness :
    normalize_shade Val.none = "" ∧
    ((normalize_shade (Val.str "x#y#")).data.contains '#') = false :=
  ⟨spec_c7_shade_normalization.1 Val.none (by decide),
   spec_c7_shade_normalization.2.2.2.2.2.2.2 "x#y#"⟩

theorem prefix_takeWhile {q : Char → Bool} (l₁ : List Char) :
    ∀ (l₂ : List Char), l₁ <+: l₂ → l₁.all q = true → l₁ <+: l₂.takeWhile q := by
  induction l₁ with
  | nil =>
    intro l₂ _ _
    exact List.nil_prefix
  | cons a t ih =>
    intro l₂ h hall
    obtain ⟨r, hr⟩ := h
    subst hr
    rw [List.all_cons, Bool.and_eq_true] at hall
    show a :: t <+: ((a :: t) ++ r).takeWhile q
    rw [List.cons_append, List.takeWhile_cons, if_pos hall.1]
    obtain ⟨w, hw⟩ := ih (t ++ r) (List.prefix_append t r) hall.2
    exact ⟨w, by rw [List.cons_append, hw]⟩

theorem takeWhile_all_true {q : Char → Bool} (l : List Char) :
    (l.takeWhile q).all q = true := by
  rw [List.all_eq_true]
  intro x hx
  exact List.mem_takeWhile_imp hx

theorem dropWhile_head_not {q : Char → Bool} (l : List Char) :
    ∀ c t, l.dropWhile q = c :: t → q c = false := by
  induction l with
  | nil =>
    intro c t h
    simp [List.dropWhile] at h
  | cons a l ih =>
    intro c t h
    rw [List.dropWhile_cons] at h
    by_cases ha : q a = true
    · rw [if_pos ha] at h
      exact ih c t h
    · rw [if_neg ha] at h
      injection h with h1 _
      subst h1
      exact Bool.not_eq_true _ ▸ ha

theorem isDigit_ne_dot {c : Char} (h : c.isDigit = true) : (c == '.') = false := by
  rw [Bool.eq_false_iff]
  intro hc
  have hcd : c = '.' := eq_of_beq hc
  subst hcd
  exact absurd h (by decide)

theorem patTail_cons (c : Char) (rest : List Char) :
    patTail (c :: rest) =
      if c == '.' then rest.all Char.isDigit else c.isDigit && patTail rest := rfl

theorem patTail_append_digits (ds : List Char) :
    ∀ (t : List Char), ds.all Char.isDigit = true → patTail (ds ++ t) = patTail t := by
  induction ds with
  | nil => intro t _; rfl
  | cons c ds ih =>
    intro t hall
    rw [List.all_cons, Bool.and_eq_true] at hall
    rw [List.cons_append, patTail_cons, if_neg (by rw [isDigit_ne_dot hall.1]; simp),
      hall.1, Bool.true_and]
    exact ih t hall.2

theorem isPat_digits (ds : List Char) (hne : ds ≠ [])
    (hall : ds.all Char.isDigit = true) : isPat ds = true := by
  cases ds with
  | nil => exact absurd rfl hne
  | cons c t =>
    rw [List.all_cons, Bool.and_eq_true] at hall
    show (c.isDigit && patTail t) = true
    rw [hall.1, Bool.true_and]
    have := patTail_append_digits t [] hall.2
    rw [List.append_nil] at this
    rw [this]
    rfl

theorem isPat_digits_dot (ds ds2 : List Char) (hne : ds ≠ [])
    (hall : ds.all Char.isDigit = true) (hall2 : ds2.all Char.isDigit = true) :
    isPat (ds ++ '.' :: ds2) = true := by
  cases ds with
  | nil => exact absurd rfl hne
  | cons c t =>
    rw [List.all_cons, Bool.and_eq_true] at hall
    show (c.isDigit && patTail (t ++ '.' :: ds2)) = true
    rw [hall.1, Bool.true_and, patTail_append_digits t _ hall.2, patTail_cons,
      if_pos (by simp)]
    exact hall2

theorem isPat_head_digit {c : Char} {rest : List Char}
    (h : isPat (c :: rest) = true) : c.isDigit = true := by
  have hand : (c.isDigit && patTail rest) = true := h
  rw [Bool.and_eq_true] at hand
  exact hand.1

theorem patTail_decomp (t : List Char) : patTail t = true →
    ∃ dp r, t = dp ++ r ∧ dp.all Char.isDigit = true ∧
      (r = [] ∨ ∃ ds2, r = '.' :: ds2 ∧ ds2.all Char.isDigit = true) := by
  induction t with
  | nil => exact fun _ => ⟨[], [], rfl, rfl, Or.inl rfl⟩
  | cons c rest ih =>
    intro h
    rw [patTail_cons] at h
    by_cases hc : (c == '.') = true
    · rw [if_pos hc] at h
      have hcd : c = '.' := eq_of_beq hc
      subst hcd
      exact ⟨[], '.' :: rest, rfl, rfl, Or.inr ⟨rest, rfl, h⟩⟩
    · rw [if_neg hc] at h
      rw [Bool.and_eq_true] at h
      obtain ⟨dp, r, heq, hall, hr⟩ := ih h.2
      refine ⟨c :: dp, r, by rw [List.cons_append, heq], ?_, hr⟩
      rw [List.all_cons, Bool.and_eq_true]
      exact ⟨h.1, hall⟩

theorem isPat_decomp (p : List Char) : isPat p = true →
    ∃ dp t, p = dp ++ t ∧ dp ≠ [] ∧ dp.all Char.isDigit = true ∧
      (t = [] ∨ ∃ ds2, t = '.' :: ds2 ∧ ds2.all Char.isDigit = true) := by
  cases p with
  | nil => intro h; exact absurd h (by decide)
  | cons c rest =>
    intro h
    have hand : (c.isDigit && patTail rest) = true := h
    rw [Bool.and_eq_true] at hand
    obtain ⟨dp, r, heq, hall, hr⟩ := patTail_decomp rest hand.2
    refine ⟨c :: dp, r, by rw [List.cons_append, heq], by simp, ?_, hr⟩
    rw [List.all_cons, Bool.and_eq_true]
    exact ⟨hand.1, hall⟩

theorem drop_length_takeWhile {q : Char → Bool} (l : List Char) :
    l.drop (l.takeWhile q).length = l.dropWhile q := by
  induction l with
  | nil => rfl
  | cons a l ih =>
    rw [List.takeWhile_cons, List.dropWhile_cons]
    by_cases ha : q a = true
    · rw [if_pos ha, if_pos ha, List.length_cons, List.drop_succ_cons]
      exact ih
    · rw [if_neg ha, if_neg ha]
      rfl

theorem extractNumList_eq (cs : List Char) :
    extractNumList cs =
      (if (cs.takeWhile Char.isDigit).isEmpty then none
       else
        match cs.dropWhile Char.isDigit with
        | '.' :: rtail =>
            some (cs.takeWhile Char.isDigit ++ '.' :: rtail.takeWhile Char.isDigit)
        | _ => some (cs.takeWhile Char.isDigit)) := by
  simp only [extractNumList]
  rw [drop_length_takeWhile]

theorem dot_not_mem_takeWhile_digit (cs : List Char) :
    '.' ∉ cs.takeWhile Char.isDigit := by
  intro hmem
  have hd : Char.isDigit '.' = true := List.mem_takeWhile_imp hmem
  exact absurd hd (by decide)

theorem pat_prefix_shape (cs p : List Char) (hp : p <+: cs) (hpat : isPat p = true) :
    p <+: cs.takeWhile Char.isDigit ∨
    (∃ ds2, p = cs.takeWhile Char.isDigit ++ '.' :: ds2 ∧
       ds2.all Char.isDigit = true ∧ '.' :: ds2 <+: cs.dropWhile Char.isDigit) := by
  obtain ⟨dp, t, hpe, hdpne, hdpall, ht⟩ := isPat_decomp p hpat
  rcases ht with ht | ⟨ds2, ht, hds2⟩
  · subst ht
    rw [List.append_nil] at hpe
    subst hpe
    exact Or.inl (prefix_takeWhile p cs hp hdpall)
  · subst ht hpe
    have hdp_p : dp <+: dp ++ '.' :: ds2 := List.prefix_append dp _
    have hdp_cs : dp <+: cs := hdp_p.trans hp
    have hdp_ds : dp <+: cs.takeWhile Char.isDigit :=
      prefix_takeWhile dp cs hdp_cs hdpall
    have hdot_p : dp ++ ['.'] <+: dp ++ '.' :: ds2 := by
      rw [ List.prefix_append_right_inj]
      exact ⟨ds2, rfl⟩
    have hdot_cs : dp ++ ['.'] <+: cs := hdot_p.trans hp
    have hds_cs : cs.takeWhile Char.isDigit <+: cs := List.takeWhile_prefix _
    rcases List.prefix_or_prefix_of_prefix hdot_cs hds_cs with hcase | hcase
    · exfalso
      apply dot_not_mem_takeWhile_digit cs
      exact hcase.sublist.subset (List.mem_append_right dp (by simp))
    · have hlen1 : dp.length ≤ (cs.takeWhile Char.isDigit).length := hdp_ds.length_le
      have hlen2 : (cs.takeWhile Char.isDigit).length ≤ dp.length + 1 := by
        have := hcase.length_le
        simpa using this
      rcases Nat.lt_or_ge (cs.takeWhile Char.isDigit).length (dp.length + 1) with hlt | hge
      · have hEq : dp.length = (cs.takeWhile Char.isDigit).length := by omega
        have hdse : dp = cs.takeWhile Char.isDigit := hdp_ds.eq_of_length hEq
        refine Or.inr ⟨ds2, by rw [← hdse], hds2, ?_⟩
        have hcs : dp ++ cs.dropWhile Char.isDigit = cs := by
          conv_rhs => rw [← List.takeWhile_append_dropWhile Char.isDigit cs]
          rw [hdse]
        rw [← hcs] at hp
        exact ( List.prefix_append_right_inj dp).mp hp
      · exfalso
        have hEq : (cs.takeWhile Char.isDigit).length = (dp ++ ['.']).length := by
          simp only [List.length_append, List.length_cons, List.length_nil]
          omega
        have hdse : cs.takeWhile Char.isDigit = dp ++ ['.'] :=
          hcase.eq_of_length hEq
        apply dot_not_mem_takeWhile_digit cs
        rw [hdse]
        exact List.mem_append_right dp (by simp)

theorem extractNumList_none (cs : List Char) (hnone : extractNumList cs = none) :
    ∀ p, p <+: cs → isPat p = false := by
  intro p hp
  rw [extractNumList_eq] at hnone
  by_cases hemp : (cs.takeWhile Char.isDigit).isEmpty = true
  · rw [Bool.eq_false_iff]
    intro hpat
    cases p with
    | nil => exact absurd hpat (by decide)
    | cons c rest =>
      have hc := isPat_head_digit hpat
      obtain ⟨w, hw⟩ := hp
      rw [List.isEmpty_iff] at hemp
      rw [← hw, List.cons_append, List.takeWhile_cons, if_pos hc] at hemp
      exact absurd hemp (by simp)
  · exfalso
    rw [if_neg hemp] at hnone
    split at hnone <;> simp at hnone

theorem extractNumList_some (cs r : List Char) (hsome : extractNumList cs = some r) :
    r <+: cs ∧ isPat r = true ∧
      ∀ p, p <+: cs → isPat p = true → p.length ≤ r.length := by
  rw [extractNumList_eq] at hsome
  by_cases hemp : (cs.takeWhile Char.isDigit).isEmpty = true
  · rw [if_pos hemp] at hsome
    exact absurd hsome (by simp)
  rw [if_neg hemp] at hsome
  have hdsne : cs.takeWhile Char.isDigit ≠ [] := by
    intro h0
    rw [List.isEmpty_iff] at hemp
    exact hemp h0
  have hdsall : (cs.takeWhile Char.isDigit).all Char.isDigit = true :=
    takeWhile_all_true cs
  have hds_cs : cs.takeWhile Char.isDigit <+: cs := List.takeWhile_prefix _
  have hcs : cs.takeWhile Char.isDigit ++ cs.dropWhile Char.isDigit = cs :=
    List.takeWhile_append_dropWhile Char.isDigit cs
  cases hrest : cs.dropWhile Char.isDigit with
  | nil =>
    rw [hrest] at hsome
    have hre : r = cs.takeWhile Char.isDigit := by
      cases hsome
      rfl
    subst hre
    refine ⟨hds_cs, isPat_digits _ hdsne hdsall, ?_⟩
    intro p hp hpat
    rcases pat_prefix_shape cs p hp hpat with hsh | ⟨ds2, hpe, _, hsuf⟩
    · exact hsh.length_le
    · rw [hrest] at hsuf
      have := hsuf.length_le
      simp at this
  | cons c rtail =>
    by_cases hcdot : c = '.'
    · subst hcdot
      rw [hrest] at hsome
      have hre : r = cs.takeWhile Char.isDigit ++ '.' :: rtail.takeWhile Char.isDigit := by
        cases hsome
        rfl
      subst hre
      have htw : rtail.takeWhile Char.isDigit <+: rtail := List.takeWhile_prefix _
      refine ⟨?_, ?_, ?_⟩
      · obtain ⟨w, hw⟩ := htw
        refine ⟨w, ?_⟩
        rw [List.append_assoc, List.cons_append, hw, ← hrest]
        exact hcs
      · exact isPat_digits_dot _ _ hdsne hdsall (takeWhile_all_true rtail)
      · intro p hp hpat
        rcases pat_prefix_shape cs p hp hpat with hsh | ⟨ds2, hpe, hds2all, hsuf⟩
        · have h1 := hsh.length_le
          simp only [List.length_append, List.length_cons]
          omega
        · rw [hrest] at hsuf
          obtain ⟨w, hw⟩ := hsuf
          rw [List.cons_append] at hw
          injection hw with _ hw2
          have hds2r : ds2 <+: rtail := ⟨w, hw2⟩
          have hds2tw : ds2 <+: rtail.takeWhile Char.isDigit :=
            prefix_takeWhile ds2 rtail hds2r hds2all
          have h2 := hds2tw.length_le
          rw [hpe]
          simp only [List.length_append, List.length_cons]
          omega
    · rw [hrest] at hsome
      have hre : r = cs.takeWhile Char.isDigit := by
        revert hsome
        split
        · rename_i heq
          exact absurd (List.head_eq_of_cons_eq heq) hcdot
        · intro hsome
          cases hsome
          rfl
      subst hre
      refine ⟨hds_cs, isPat_digits _ hdsne hdsall, ?_⟩
      intro p hp hpat
      rcases pat_prefix_shape cs p hp hpat with hsh | ⟨ds2, hpe, _, hsuf⟩
      · exact hsh.length_le
      · exfalso
        rw [hrest] at hsuf
        obtain ⟨w, hw⟩ := hsuf
        rw [List.cons_append] at hw
        injection hw with h1 _
        exact hcdot h1.symm

/-- **C8** (corrected): the claim said `extract_shade_number` returns the
longest prefix of its argument matching `\d+\.?\d*` — but the function first
strips surrounding whitespace (line 35), so on `" 12"` it returns `"12"`,
which matches no prefix of the argument itself.  Amended: it returns the
longest such prefix of the *stripped* string, or `None` when the stripped
string has no such prefix; `extract_shade_number "12 Warm" = "12"` and
`extract_shade_number "Warm 12" = None`. -/
theorem spec_c8_amended (s : String) :
    (extract_shade_number s = none →
       ∀ p, p <+: (pyStrip s).data → isPat p = false) ∧
    (∀ r, extract_shade_number s = some r →
       r.data <+: (pyStrip s).data ∧ isPat r.data = true ∧
       ∀ p, p <+: (pyStrip s).data → isPat p = true → p.length ≤ r.data.length) ∧
    extract_shade_number "12 Warm" = some "12" ∧
    extract_shade_number "Warm 12" = none := by
  refine ⟨?_, ?_, by decide, by decide⟩
  · intro hnone
    rw [extract_shade_number, Option.map_eq_none'] at hnone
    exact extractNumList_none _ hnone
  · intro r hr
    rw [extract_shade_number] at hr
    obtain ⟨l, hl, hlr⟩ := Option.map_eq_some'.mp hr
    have h3 := extractNumList_some _ _ hl
    have hrd : r.data = l := by rw [← hlr]
    rw [hrd]
    exact h3

/-- **C8** counterexample to the claim as stated: on `" 12"` (leading
space) the code returns `"12"`, yet no prefix of `" 12"` matches the
pattern (so the claim would demand `None`), and the returned string is not
a prefix of the input at all. -/
theorem spec_c8_counterexample :
    extract_shade_number " 12" = some "12" ∧
    ((List.range 4).all (fun k => !isPat ((" 12".data).take k))) = true ∧
    ("12".data.isPrefixOf " 12".data) = false := by
  refine ⟨by decide, by decide, by decide⟩

/-- Witness for the amended C8, applying it at `"12.5x"`. -/
theorem spec_c8_witness :
    ("12.5".data <+: (pyStrip "12.5x").data) ∧ isPat "12.5".data = true ∧
    ['1', '2'].length ≤ "12.5".data.length := by
  have h := (spec_c8_amended "12.5x").2.1 "12.5" (by decide)
  exact ⟨h.1, h.2.1, h.2.2 ['1', '2'] ⟨['.', '5', 'x'], by decide⟩ (by decide)⟩

theorem process_item_standardized (catalog : Catalog) (oracle : Oracle)
    (f g : String) (st : RunState) (item : Dict) :
    (process_item catalog oracle f g st item).standardized =
      st.standardized ++ [annotate_item catalog oracle item] := rfl

theorem process_item_items (catalog : Catalog) (oracle : Oracle)
    (f g : String) (st : RunState) (item : Dict) :
    (process_item catalog oracle f g st item).items_processed =
      st.items_processed ++ [item] := rfl

theorem process_item_trace (catalog : Catalog) (oracle : Oracle)
    (f g : String) (st : RunState) (item : Dict) :
    (process_item catalog oracle f g st item).trace =
      st.trace ++ ((item_result catalog oracle item).2).map (fun q => (item, q)) := rfl

theorem process_item_saves (catalog : Catalog) (oracle : Oracle)
    (f g : String) (st : RunState) (item : Dict) :
    (process_item catalog oracle f g st item).saves =
      st.saves ++ [save_all_files f g (st.standardized ++ [annotate_item catalog oracle item])] := rfl

theorem run_items_nil (catalog : Catalog) (oracle : Oracle) (f g : String)
    (st : RunState) : run_items catalog oracle f g st [] = st := rfl

theorem run_items_cons (catalog : Catalog) (oracle : Oracle) (f g : String)
    (st : RunState) (it : Dict) (items : List Dict) :
    run_items catalog oracle f g st (it :: items) =
      run_items catalog oracle f g (process_item catalog oracle f g st it) items := rfl

theorem run_items_standardized (catalog : Catalog) (oracle : Oracle) (f g : String)
    (items : List Dict) : ∀ st : RunState,
    (run_items catalog oracle f g st items).standardized =
      st.standardized ++ items.map (annotate_item catalog oracle) := by
  induction items with
  | nil => intro st; simp [run_items_nil]
  | cons it items ih =>
    intro st
    rw [run_items_cons, ih, process_item_standardized]
    simp [List.append_assoc]

theorem run_items_items (catalog : Catalog) (oracle : Oracle) (f g : String)
    (items : List Dict) : ∀ st : RunState,
    (run_items catalog oracle f g st items).items_processed =
      st.items_processed ++ items := by
  induction items with
  | nil => intro st; simp [run_items_nil]
  | cons it items ih =>
    intro st
    rw [run_items_cons, ih, process_item_items]
    simp [List.append_assoc]

theorem run_items_trace (catalog : Catalog) (oracle : Oracle) (f g : String)
    (items : List Dict) : ∀ st : RunState,
    (run_items catalog oracle f g st items).trace =
      st.trace ++ items.flatMap
        (fun it => ((item_result catalog oracle it).2).map (fun q => (it, q))) := by
  induction items with
  | nil => intro st; simp [run_items_nil]
  | cons it items ih =>
    intro st
    rw [run_items_cons, ih, process_item_trace]
    simp [List.flatMap_cons, List.append_assoc]

theorem run_items_saves (catalog : Catalog) (oracle : Oracle) (f g : String)
    (items : List Dict) : ∀ st : RunState,
    (run_items catalog oracle f g st items).saves =
      st.saves ++ (List.range items.length).map
        (fun i => save_all_files f g
          (st.standardized ++ ((items.take (i + 1)).map (annotate_item catalog oracle)))) := by
  induction items with
  | nil => intro st; simp [run_items_nil]
  | cons it items ih =>
    intro st
    rw [run_items_cons, ih, process_item_saves, process_item_standardized]
    rw [List.length_cons, List.range_succ_eq_map]
    rw [List.map_cons, List.map_map]
    simp only [List.take_succ_cons, List.map_cons, List.append_assoc, List.singleton_append]
    simp only [List.take_zero, List.map_nil, Nat.succ_eq_add_one]
    congr 2

theorem standardize_products_def (data : List Dict) (catalog : Catalog)
    (oracle : Oracle) (prior : Option (List Dict)) (f g : String) :
    standardize_products data catalog oracle prior f g =
      run_items catalog oracle f g
        ⟨prior.getD [], (prior.getD []).map get_item_key, 0, 0, 0, [], [], []⟩
        (data.filter
          (fun it => !(((prior.getD []).map get_item_key).contains (get_item_key it)))) := rfl

/-- **C1** (confirmed): resume safety.  For any prior standardized output and
any fresh input, the resumed run processes exactly the records whose key is
absent from the prior output; every oracle request is issued for such a new
record only; and the loaded prior records are preserved unchanged as the
initial segment of the final accumulator — all regardless of the catalog and
of what the oracle would now answer. -/
theorem spec_c1_resume_safety (prior data : List Dict) (catalog : Catalog)
    (oracle : Oracle) (f g : String) :
    (standardize_products data catalog oracle (some prior) f g).items_processed =
      data.filter (fun it => !((prior.map get_item_key).contains (get_item_key it))) ∧
    (standardize_products data catalog oracle (some prior) f g).standardized.take
      prior.length = prior ∧
    ((standardize_products data catalog oracle (some prior) f g).trace.all
      (fun e => !((prior.map get_item_key).contains (get_item_key e.1)))) = true := by
  refine ⟨?_, ?_, ?_⟩
  · rw [standardize_products_def, run_items_items]
    rfl
  · rw [standardize_products_def, run_items_standardized]
    exact List.take_left prior _
  · rw [standardize_products_def, run_items_trace]
    rw [List.all_eq_true]
    intro e he
    rw [List.nil_append, List.mem_flatMap] at he
    obtain ⟨it, hit, he2⟩ := he
    rw [List.mem_filter] at hit
    rw [List.mem_map] at he2
    obtain ⟨q, _, hq⟩ := he2
    rw [← hq]
    exact hit.2

theorem find?_map_set (d : List (String × Val)) (k : String) (v : Val) :
    List.any d (fun kv => kv.1 == k) = true →
    List.find? (fun kv => kv.1 == k)
      (List.map (fun kv => if kv.1 == k then (k, v) else kv) d) = some (k, v) := by
  induction d with
  | nil => intro h; simp at h
  | cons kv rest ih =>
    intro h
    by_cases hk : (kv.1 == k) = true
    · rw [List.map_cons, if_pos hk]
      exact List.find?_cons_of_pos _ (by simp)
    · rw [List.map_cons, if_neg hk]
      rw [List.find?_cons_of_neg _ (by simp [hk])]
      apply ih
      rw [List.any_cons, Bool.or_eq_true] at h
      rcases h with h | h
      · exact absurd h hk
      · exact h

theorem find?_map_set_other (d : List (String × Val)) (k k' : String) (v : Val)
    (h : ¬ k' = k) :
    List.find? (fun kv => kv.1 == k')
      (List.map (fun kv => if kv.1 == k then (k, v) else kv) d) =
    List.find? (fun kv => kv.1 == k') d := by
  induction d with
  | nil => rfl
  | cons kv rest ih =>
    by_cases hk : (kv.1 == k) = true
    · rw [List.map_cons, if_pos hk]
      have hkk : kv.1 = k := eq_of_beq hk
      have h1 : ((fun kv : String × Val => kv.1 == k') (k, v)) = false := by
        simp only [beq_eq_false_iff_ne]
        exact fun he => h he.symm
      have h2 : ((fun kv : String × Val => kv.1 == k') kv) = false := by
        simp only [beq_eq_false_iff_ne]
        intro he
        exact h (by rw [← he, hkk])
      rw [List.find?_cons_of_neg _ (by simp only [h1]; exact Bool.false_ne_true),
        List.find?_cons_of_neg _ (by simp only [h2]; exact Bool.false_ne_true)]
      exact ih
    · rw [List.map_cons, if_neg hk]
      simp only [List.find?]
      cases hkv : (kv.1 == k')
      · simp only [hkv]
        exact ih
      · simp only [hkv]

theorem dict_get?_set_self (d : Dict) (k : String) (v : Val) :
    (d.set k v).get? k = some v := by
  rw [Dict.set]
  by_cases h : List.any d (fun kv => kv.1 == k) = true
  · rw [if_pos h, Dict.get?, find?_map_set d k v h]
    rfl
  · rw [if_neg h, Dict.get?]
    have hnone : List.find? (fun kv => kv.1 == k) d = none := by
      rw [List.find?_eq_none]
      intro x hx hpx
      exact h (List.any_eq_true.mpr ⟨x, hx, hpx⟩)
    show (List.find? (fun kv => kv.1 == k) (d ++ [(k, v)])).map Prod.snd = some v
    rw [List.find?_append, hnone]
    simp

theorem dict_get?_set_other (d : Dict) (k k' : String) (v : Val) (h : ¬ k' = k) :
    (d.set k v).get? k' = d.get? k' := by
  rw [Dict.set]
  by_cases hany : List.any d (fun kv => kv.1 == k) = true
  · rw [if_pos hany, Dict.get?, Dict.get?, find?_map_set_other d k k' v h]
  · rw [if_neg hany, Dict.get?, Dict.get?]
    show (List.find? (fun kv => kv.1 == k') (d ++ [(k, v)])).map Prod.snd = _
    rw [List.find?_append]
    have h1 : List.find? (fun kv => kv.1 == k') [(k, v)] = none := by
      rw [List.find?_eq_none]
      intro x hx hpx
      rw [List.mem_singleton] at hx
      subst hx
      exact h (eq_of_beq hpx).symm
    rw [h1]
    simp

theorem annotate_get?_line (item : Dict) (r : Option String × Nat × String) :
    (annotate item r).get? "product_line_standardized" = some (optStrVal r.1) := by
  rw [annotate]
  rw [dict_get?_set_other _ _ _ _ (by decide), dict_get?_set_other _ _ _ _ (by decide)]
  exact dict_get?_set_self _ _ _

theorem annotate_get?_score (item : Dict) (r : Option String × Nat × String) :
    (annotate item r).get? "product_standardized_score" = some (Val.int (Int.ofNat r.2.1)) := by
  rw [annotate]
  rw [dict_get?_set_other _ _ _ _ (by decide)]
  exact dict_get?_set_self _ _ _

theorem annotate_get?_status (item : Dict) (r : Option String × Nat × String) :
    (annotate item r).get? "product_match_status" = some (Val.str r.2.2) :=
  dict_get?_set_self _ _ _

theorem annotate_get?_other (item : Dict) (r : Option String × Nat × String)
    (k : String) (h1 : ¬ k = "product_line_standardized")
    (h2 : ¬ k = "product_standardized_score")
    (h3 : ¬ k = "product_match_status") :
    (annotate item r).get? k = item.get? k := by
  rw [annotate, dict_get?_set_other _ _ _ _ h3, dict_get?_set_other _ _ _ _ h2,
    dict_get?_set_other _ _ _ _ h1]

/-- **C10** (confirmed): frame property of the per-record construction
`new_item = {**item, 'product_line_standardized': ..., 'product_standardized_score': ...,
'product_match_status': ...}`: every key of the input other than those three
is looked up unchanged in the annotated record, the three keys hold exactly
the computed triple, and every record the pipeline appends is the annotation
of the corresponding processed input item. -/
theorem spec_c10_frame (item : Dict) (r : Option String × Nat × String) :
    (∀ k : String, ¬ k = "product_line_standardized" →
       ¬ k = "product_standardized_score" → ¬ k = "product_match_status" →
       (annotate item r).get? k = item.get? k) ∧
    (annotate item r).get? "product_line_standardized" = some (optStrVal r.1) ∧
    (annotate item r).get? "product_standardized_score" =
      some (Val.int (Int.ofNat r.2.1)) ∧
    (annotate item r).get? "product_match_status" = some (Val.str r.2.2) ∧
    ∀ (data : List Dict) (catalog : Catalog) (oracle : Oracle)
      (prior : Option (List Dict)) (f g : String),
      (standardize_products data catalog oracle prior f g).standardized =
        prior.getD [] ++
          ((standardize_products data catalog oracle prior f g).items_processed).map
            (annotate_item catalog oracle) := by
  refine ⟨fun k h1 h2 h3 => annotate_get?_other item r k h1 h2 h3,
    annotate_get?_line item r, annotate_get?_score item r,
    annotate_get?_status item r, ?_⟩
  intro data catalog oracle prior f g
  rw [standardize_products_def, run_items_standardized, run_items_items]
  rfl

/-- Witness for C10 at a concrete record and result triple. -/
theorem spec_c10_witness :
    (annotate (exItem "v") (some "L", 90, "success")).get? "brand_standardized" =
      (exItem "v").get? "brand_standardized" ∧
    (annotate (exItem "v") (some "L", 90, "success")).get? "product_match_status" =
      some (Val.str "success") := by
  have h := spec_c10_frame (exItem "v") (some "L", 90, "success")
  exact ⟨h.1 "brand_standardized" (by decide) (by decide) (by decide), h.2.2.2.1⟩

theorem take_append_length {α : Type} (l₁ l₂ : List α) (n : Nat) :
    (l₁ ++ l₂).take (l₁.length + n) = l₁ ++ l₂.take n := by
  rw [List.take_append_eq_append_take]
  rw [List.take_of_length_le (by omega)]
  congr 1
  congr 1
  omega

/-- **C5** (confirmed): per-record persistence.  One `save_all_files` call
happens per processed record (never batched); the i-th save writes exactly
the three outputs computed from the accumulator as it stood after the i-th
record — the full accumulator, the non-match aggregation recomputed from it
(with the non-match file omitted exactly when the aggregation is empty — the
`nonMatchFile = none` case), and the checkpoint pointer. -/
theorem spec_c5_per_record_persistence (data : List Dict) (catalog : Catalog)
    (oracle : Oracle) (prior : Option (List Dict)) (f g : String) :
    (standardize_products data catalog oracle prior f g).saves.length =
      (standardize_products data catalog oracle prior f g).items_processed.length ∧
    ∀ i (hi : i < (standardize_products data catalog oracle prior f g).saves.length),
      (standardize_products data catalog oracle prior f g).saves.get ⟨i, hi⟩ =
        save_all_files f g
          ((standardize_products data catalog oracle prior f g).standardized.take
            ((prior.getD []).length + (i + 1))) ∧
      (((standardize_products data catalog oracle prior f g).saves.get
          ⟨i, hi⟩).nonMatchFile = none ↔
        collect_non_matches
          ((standardize_products data catalog oracle prior f g).standardized.take
            ((prior.getD []).length + (i + 1))) = []) := by
  constructor
  · rw [standardize_products_def, run_items_saves, run_items_items]
    simp
  · intro i hi
    have hsaves : (standardize_products data catalog oracle prior f g).saves =
        (List.range (data.filter
            (fun it => !(((prior.getD []).map get_item_key).contains
              (get_item_key it)))).length).map
          (fun j => save_all_files f g ((prior.getD []) ++
            (((data.filter (fun it => !(((prior.getD []).map get_item_key).contains
              (get_item_key it)))).take (j + 1)).map
              (annotate_item catalog oracle)))) := by
      rw [standardize_products_def, run_items_saves]
      rfl
    have hsget : (standardize_products data catalog oracle prior f g).saves.get ⟨i, hi⟩ =
        save_all_files f g
          ((standardize_products data catalog oracle prior f g).standardized.take
            ((prior.getD []).length + (i + 1))) := by
      have hstd : (standardize_products data catalog oracle prior f g).standardized =
          (prior.getD []) ++
            ((data.filter (fun it => !(((prior.getD []).map get_item_key).contains
              (get_item_key it)))).map (annotate_item catalog oracle)) := by
        rw [standardize_products_def, run_items_standardized]
      rw [List.get_eq_getElem, List.getElem_of_eq hsaves, List.getElem_map,
        List.getElem_range, hstd, take_append_length, List.map_take]
    constructor
    · exact hsget
    · rw [hsget]
      show (if (collect_non_matches _).isEmpty then none
            else some (nonMatchRows (collect_non_matches _))) = none ↔ _
      by_cases hemp : (collect_non_matches
          ((standardize_products data catalog oracle prior f g).standardized.take
            ((prior.getD []).length + (i + 1)))).isEmpty = true
      · rw [if_pos hemp]
        rw [List.isEmpty_iff] at hemp
        exact ⟨fun _ => hemp, fun _ => rfl⟩
      · rw [if_neg hemp]
        constructor
        · intro hcon
          exact absurd hcon (by simp)
        · intro h0
          rw [List.isEmpty_iff] at hemp
          exact absurd h0 hemp

/-- Witness for C5: a fresh one-record run has exactly one save, equal to the
three outputs computed from the accumulator after that record. -/
theorem spec_c5_witness :
    (standardize_products [exItem "v1"] exCatalog exOracleOk none "o" "n").saves.length =
      (standardize_products [exItem "v1"] exCatalog exOracleOk none "o" "n").items_processed.length ∧
    (standardize_products [exItem "v1"] exCatalog exOracleOk none "o" "n").saves.get
        ⟨0, by decide⟩ =
      save_all_files "o" "n"
        ((standardize_products [exItem "v1"] exCatalog exOracleOk none "o" "n").standardized.take
          (((none : Option (List Dict)).getD []).length + (0 + 1))) := by
  have h := spec_c5_per_record_persistence [exItem "v1"] exCatalog exOracleOk none "o" "n"
  exact ⟨h.1, (h.2 0 (by decide)).1⟩

theorem select_candidates_main (raw_product : String) (brand : Val)
    (raw_shade : String) (catalog : Catalog) (h1 : ¬ raw_product = "")
    (h2 : pyTruthy brand = true) (h3 : ¬ raw_shade = "")
    (h4 : catalog.products.filter (fun p => pyEqStrVal p.brand brand) ≠ []) :
    select_candidates raw_product brand raw_shade catalog =
      SelectResult.cands
        (if !(((catalog.products.filter (fun p => pyEqStrVal p.brand brand)).filter
              (fun p => p.shades.any (shade_entry_match
                (normalize_shade (Val.str raw_shade))
                (extract_shade_number (normalize_shade (Val.str raw_shade)))))).map
              (fun p => p.product_line)).isEmpty
         then ((catalog.products.filter (fun p => pyEqStrVal p.brand brand)).filter
              (fun p => p.shades.any (shade_entry_match
                (normalize_shade (Val.str raw_shade))
                (extract_shade_number (normalize_shade (Val.str raw_shade)))))).map
              (fun p => p.product_line)
         else (catalog.products.filter (fun p => pyEqStrVal p.brand brand)).map
              (fun p => p.product_line)) := by
  have hb1 : (raw_product == "") = false := by
    rw [beq_eq_false_iff_ne]
    exact h1
  have hb3 : (raw_shade != "") = true := by
    rw [bne_iff_ne]
    exact h3
  have hb4 : (catalog.products.filter (fun p => pyEqStrVal p.brand brand)).isEmpty = false := by
    rw [List.isEmpty_eq_false_iff_exists_mem]
    cases hcl : catalog.products.filter (fun p => pyEqStrVal p.brand brand) with
    | nil => exact absurd hcl h4
    | cons x xs => exact ⟨x, List.mem_cons_self x xs⟩
  unfold select_candidates
  rw [if_neg (by rw [hb1, h2]; simp)]
  rw [if_neg (by rw [hb4]; simp)]
  rw [if_pos hb3]

theorem claimEntryMatches_eq (raw_shade : String) (p : CatalogEntry) :
    claimEntryMatches raw_shade p =
      p.shades.any (shade_entry_match (normalize_shade (Val.str raw_shade))
        (extract_shade_number (normalize_shade (Val.str raw_shade)))) := rfl

/-- **C6** (confirmed): candidate fallback.  For a brand with at least one
catalog entry, a non-empty raw product and a non-empty raw shade: if no
entry's shade matches the raw shade (neither case-insensitive equality of
the normalized strings nor equality of the extracted leading numbers), the
candidate set is the brand's full product-line list; if at least one entry
matches, it is exactly the matching entries' product lines; and it is never
empty. -/
theorem spec_c6_candidate_fallback (raw_product : String) (brand : Val)
    (raw_shade : String) (catalog : Catalog) (h1 : ¬ raw_product = "")
    (h2 : pyTruthy brand = true) (h3 : ¬ raw_shade = "")
    (h4 : catalog.products.filter (fun p => pyEqStrVal p.brand brand) ≠ []) :
    (((catalog.products.filter (fun p => pyEqStrVal p.brand brand)).all
        (fun p => !(claimEntryMatches raw_shade p))) = true →
      select_candidates raw_product brand raw_shade catalog =
        SelectResult.cands
          ((catalog.products.filter (fun p => pyEqStrVal p.brand brand)).map
            (fun p => p.product_line))) ∧
    (((catalog.products.filter (fun p => pyEqStrVal p.brand brand)).any
        (claimEntryMatches raw_shade)) = true →
      select_candidates raw_product brand raw_shade catalog =
        SelectResult.cands
          (((catalog.products.filter (fun p => pyEqStrVal p.brand brand)).filter
            (claimEntryMatches raw_shade)).map (fun p => p.product_line))) ∧
    ∀ cs, select_candidates raw_product brand raw_shade catalog =
      SelectResult.cands cs → cs ≠ [] := by
  rw [select_candidates_main raw_product brand raw_shade catalog h1 h2 h3 h4]
  refine ⟨?_, ?_, ?_⟩
  · intro hall
    have hfil : (catalog.products.filter (fun p => pyEqStrVal p.brand brand)).filter
        (fun p => p.shades.any (shade_entry_match (normalize_shade (Val.str raw_shade))
          (extract_shade_number (normalize_shade (Val.str raw_shade))))) = [] := by
      rw [List.filter_eq_nil_iff]
      intro p hp
      rw [List.all_eq_true] at hall
      have hnp := hall p hp
      rw [Bool.not_eq_eq_eq_not, Bool.not_true] at hnp
      rw [claimEntryMatches_eq] at hnp
      intro hcon
      rw [hcon] at hnp
      exact absurd hnp (by decide)
    rw [hfil]
    rfl
  · intro hany
    obtain ⟨p, hp, hpm⟩ := List.any_eq_true.mp hany
    rw [claimEntryMatches_eq] at hpm
    have hmem : p ∈ (catalog.products.filter (fun p => pyEqStrVal p.brand brand)).filter
        (fun p => p.shades.any (shade_entry_match (normalize_shade (Val.str raw_shade))
          (extract_shade_number (normalize_shade (Val.str raw_shade))))) :=
      List.mem_filter.mpr ⟨hp, hpm⟩
    have hne : ¬ (((catalog.products.filter (fun p => pyEqStrVal p.brand brand)).filter
        (fun p => p.shades.any (shade_entry_match (normalize_shade (Val.str raw_shade))
          (extract_shade_number (normalize_shade (Val.str raw_shade)))))).map
          (fun p => p.product_line)).isEmpty = true := by
      intro h0
      rw [List.isEmpty_iff, List.map_eq_nil_iff] at h0
      rw [h0] at hmem
      exact List.not_mem_nil p hmem
    have hne' : (((catalog.products.filter (fun p => pyEqStrVal p.brand brand)).filter
        (fun p => p.shades.any (shade_entry_match (normalize_shade (Val.str raw_shade))
          (extract_shade_number (normalize_shade (Val.str raw_shade)))))).map
          (fun p => p.product_line)).isEmpty = false := by
      cases hb : (((catalog.products.filter (fun p => pyEqStrVal p.brand brand)).filter
        (fun p => p.shades.any (shade_entry_match (normalize_shade (Val.str raw_shade))
          (extract_shade_number (normalize_shade (Val.str raw_shade)))))).map
          (fun p => p.product_line)).isEmpty
      · rfl
      · exact absurd hb hne
    rw [if_pos (by rw [hne']; rfl)]
    rfl
  · intro cs hcs
    have hcse : cs = _ := (SelectResult.cands.injEq _ _ ▸ hcs).symm
    rw [hcse]
    split
    · rename_i hval
      rw [Bool.not_eq_true', List.isEmpty_eq_false_iff_exists_mem] at hval
      obtain ⟨x, hx⟩ := hval
      exact List.ne_nil_of_mem hx
    · intro h0
      rw [List.map_eq_nil_iff] at h0
      exact h4 h0

/-- Witness for C6: with shade `"999"` nothing matches and both product
lines are offered; with shade `"128"` the number match narrows to `Line1`;
the candidate list is non-empty. -/
theorem spec_c6_witness :
    select_candidates "p" (Val.str "B") "999" exCatalog =
      SelectResult.cands ["Line1", "Line2"] ∧
    select_candidates "p" (Val.str "B") "128" exCatalog =
      SelectResult.cands ["Line1"] ∧
    (["Line1", "Line2"] : List String) ≠ [] := by
  have h1 := spec_c6_candidate_fallback "p" (Val.str "B") "999" exCatalog
    (by decide) (by decide) (by decide) (by decide)
  have h2 := spec_c6_candidate_fallback "p" (Val.str "B") "128" exCatalog
    (by decide) (by decide) (by decide) (by decide)
  refine ⟨?_, ?_, h1.2.2 ["Line1", "Line2"] (by decide)⟩
  · rw [h1.1 (by decide)]
    decide
  · rw [h2.2.1 (by decide)]
    decide

theorem ai_match_productT_cands (raw_product : String) (brand : Val)
    (raw_shade : String) (catalog : Catalog) (oracle : Oracle) (cs : List String)
    (hsel : select_candidates raw_product brand raw_shade catalog =
      SelectResult.cands cs) :
    ai_match_productT raw_product brand raw_shade catalog oracle =
      (match oracle ⟨raw_product, brand, cs⟩ with
       | Except.error _ => ((none, 0, "api_error"), [⟨raw_product, brand, cs⟩])
       | Except.ok response =>
         if pyStrip response == "NONE" then
           ((none, 0, "ai_returned_none"), [⟨raw_product, brand, cs⟩])
         else if !((cs : List String).contains (pyStrip response)) then
           ((none, 0, "ai_hallucinated"), [⟨raw_product, brand, cs⟩])
         else ((some (pyStrip response), 90, "success"), [⟨raw_product, brand, cs⟩])) := by
  unfold ai_match_productT
  rw [hsel]

theorem ai_match_productT_error (raw_product : String) (brand : Val)
    (raw_shade : String) (catalog : Catalog) (oracle : Oracle) (cs : List String)
    (hsel : select_candidates raw_product brand raw_shade catalog =
      SelectResult.cands cs)
    (hor : oracle ⟨raw_product, brand, cs⟩ = Except.error ()) :
    ai_match_productT raw_product brand raw_shade catalog oracle =
      ((none, 0, "api_error"), [⟨raw_product, brand, cs⟩]) := by
  rw [ai_match_productT_cands raw_product brand raw_shade catalog oracle cs hsel, hor]

theorem ai_match_productT_ok (raw_product : String) (brand : Val)
    (raw_shade : String) (catalog : Catalog) (oracle : Oracle) (cs : List String)
    (response : String)
    (hsel : select_candidates raw_product brand raw_shade catalog =
      SelectResult.cands cs)
    (hor : oracle ⟨raw_product, brand, cs⟩ = Except.ok response) :
    ai_match_productT raw_product brand raw_shade catalog oracle =
      (if pyStrip response == "NONE" then
         ((none, 0, "ai_returned_none"), [⟨raw_product, brand, cs⟩])
       else if !((cs : List String).contains (pyStrip response)) then
         ((none, 0, "ai_hallucinated"), [⟨raw_product, brand, cs⟩])
       else ((some (pyStrip response), 90, "success"), [⟨raw_product, brand, cs⟩])) := by
  rw [ai_match_productT_cands raw_product brand raw_shade catalog oracle cs hsel, hor]

/-- **C3** (corrected): the claim quantified over the raw oracle response,
but the adapter strips the response before classifying it (line 111), so a
response of `" NONE "` — which is neither the literal `"NONE"` nor a member
of the candidate list — yields `ai_returned_none`, not `ai_hallucinated`.
Amended: classification is by the *stripped* response — if it is neither
`"NONE"` nor in the candidate list the result is `(None, 0,
"ai_hallucinated")`, and `"success"` (with the matched line and score 90)
occurs only when the stripped response is present verbatim in the candidate
list. -/
theorem spec_c3_amended (raw_product : String) (brand : Val) (raw_shade : String)
    (catalog : Catalog) (cs : List String)
    (hsel : select_candidates raw_product brand raw_shade catalog =
      SelectResult.cands cs) :
    (∀ s : String, ¬ pyStrip s = "NONE" → (cs.contains (pyStrip s)) = false →
      ai_match_product raw_product brand raw_shade catalog (fun _ => Except.ok s) =
        (none, 0, "ai_hallucinated")) ∧
    (∀ (oracle : Oracle) (m : Option String) (sc : Nat),
      ai_match_product raw_product brand raw_shade catalog oracle =
        (m, sc, "success") →
      ∃ s, oracle ⟨raw_product, brand, cs⟩ = Except.ok s ∧
        (cs.contains (pyStrip s)) = true ∧ m = some (pyStrip s) ∧ sc = 90) := by
  constructor
  · intro s hs hc
    unfold ai_match_product
    rw [ai_match_productT_ok raw_product brand raw_shade catalog _ cs s hsel rfl]
    rw [if_neg (by rw [beq_eq_false_iff_ne.mpr hs]; exact Bool.false_ne_true)]
    rw [if_pos (by rw [hc]; rfl)]
  · intro oracle m sc hres
    unfold ai_match_product at hres
    cases hor : oracle ⟨raw_product, brand, cs⟩ with
    | error e =>
      rw [ai_match_productT_error raw_product brand raw_shade catalog oracle cs hsel
        (by rw [hor])] at hres
      have h3 : ("api_error" : String) = "success" :=
        congrArg (fun t : Option String × Nat × String => t.2.2) hres
      exact absurd h3 (by decide)
    | ok response =>
      rw [ai_match_productT_ok raw_product brand raw_shade catalog oracle cs response
        hsel hor] at hres
      by_cases hN : (pyStrip response == "NONE") = true
      · rw [if_pos hN] at hres
        have h3 : ("ai_returned_none" : String) = "success" :=
          congrArg (fun t : Option String × Nat × String => t.2.2) hres
        exact absurd h3 (by decide)
      · rw [if_neg hN] at hres
        by_cases hC : (cs.contains (pyStrip response)) = true
        · rw [if_neg (fun hcon => by rw [hC] at hcon; exact absurd hcon (by decide))]
            at hres
          have h5 : some (pyStrip response) = m :=
            congrArg (fun t : Option String × Nat × String => t.1) hres
          have h6 : (90 : Nat) = sc :=
            congrArg (fun t : Option String × Nat × String => t.2.1) hres
          exact ⟨response, rfl, hC, h5.symm, h6.symm⟩
        · rw [if_pos (by rw [Bool.not_eq_true] at hC; rw [hC]; rfl)] at hres
          have h3 : ("ai_hallucinated" : String) = "success" :=
            congrArg (fun t : Option String × Nat × String => t.2.2) hres
          exact absurd h3 (by decide)

/-- **C3** counterexample to the claim as stated: with candidate list
`["Line1", "Line2"]`, the response `" NONE "` is neither the sentinel
`"NONE"` nor a candidate, yet the adapter returns `ai_returned_none`
(because it strips the response first), not `ai_hallucinated`. -/
theorem spec_c3_counterexample :
    select_candidates "p" (Val.str "B") "" exCatalog =
      SelectResult.cands ["Line1", "Line2"] ∧
    (" NONE " : String) ≠ "NONE" ∧
    ((["Line1", "Line2"] : List String).contains " NONE ") = false ∧
    ai_match_product "p" (Val.str "B") "" exCatalog (fun _ => Except.ok " NONE ") =
      (none, 0, "ai_returned_none") ∧
    ((none : Option String), 0, ("ai_returned_none" : String)) ≠
      ((none : Option String), 0, ("ai_hallucinated" : String)) := by
  refine ⟨by decide, by decide, by decide, by decide, by decide⟩

/-- Witness for the amended C3 at a concrete catalog, response and oracle. -/
theorem spec_c3_witness :
    ai_match_product "p" (Val.str "B") "" exCatalog (fun _ => Except.ok "zzz") =
      (none, 0, "ai_hallucinated") ∧
    ∃ s, exOracleOk ⟨"p", Val.str "B", ["Line1", "Line2"]⟩ = Except.ok s ∧
      ((["Line1", "Line2"] : List String).contains (pyStrip s)) = true ∧
      (some "Line1" : Option String) = some (pyStrip s) ∧ (90 : Nat) = 90 := by
  have h := spec_c3_amended "p" (Val.str "B") "" exCatalog ["Line1", "Line2"] (by decide)
  exact ⟨h.1 "zzz" (by decide) (by decide),
    h.2 exOracleOk (some "Line1") 90 (by decide)⟩

theorem dict_getD_eq_of_get?_eq {d1 d2 : Dict} {k : String} (v : Val)
    (h : d1.get? k = d2.get? k) : d1.getD k v = d2.getD k v := by
  rw [Dict.getD, Dict.getD, h]

theorem dict_getStr_eq_of_get?_eq {d1 d2 : Dict} {k : String}
    (h : d1.get? k = d2.get? k) : d1.getStr k = d2.getStr k := by
  rw [Dict.getStr, Dict.getStr, h]

theorem annotate_getD_brand (item : Dict) (r : Option String × Nat × String) :
    (annotate item r).getD "brand_standardized" Val.none =
      item.getD "brand_standardized" Val.none :=
  dict_getD_eq_of_get?_eq Val.none
    (annotate_get?_other item r _ (by decide) (by decide) (by decide))

theorem annotate_getStr_product (item : Dict) (r : Option String × Nat × String) :
    (annotate item r).getStr "product_line_raw_examples" =
      item.getStr "product_line_raw_examples" :=
  dict_getStr_eq_of_get?_eq
    (annotate_get?_other item r _ (by decide) (by decide) (by decide))

theorem annotate_getStr_shade (item : Dict) (r : Option String × Nat × String) :
    (annotate item r).getStr "shade_raw_examples" =
      item.getStr "shade_raw_examples" :=
  dict_getStr_eq_of_get?_eq
    (annotate_get?_other item r _ (by decide) (by decide) (by decide))

theorem annotate_getD_status (item : Dict) (r : Option String × Nat × String) :
    (annotate item r).getD "product_match_status" Val.none = Val.str r.2.2 := by
  rw [Dict.getD, annotate_get?_status]
  rfl

theorem annotate_getD_line (item : Dict) (r : Option String × Nat × String) :
    (annotate item r).getD "product_line_standardized" Val.none = optStrVal r.1 := by
  rw [Dict.getD, annotate_get?_line]
  rfl

theorem select_candidates_cands (raw_product : String) (brand : Val)
    (raw_shade : String) (catalog : Catalog)
    (h1 : (raw_product == "") = false) (h2 : pyTruthy brand = true)
    (h4 : (catalog.products.filter (fun p => pyEqStrVal p.brand brand)).isEmpty = false) :
    ∃ cs, select_candidates raw_product brand raw_shade catalog =
      SelectResult.cands cs := by
  unfold select_candidates
  rw [if_neg (by rw [h1, h2]; simp), if_neg (by rw [h4]; simp)]
  exact ⟨_, rfl⟩

theorem select_candidates_no_products (raw_product : String) (brand : Val)
    (raw_shade : String) (catalog : Catalog)
    (h1 : (raw_product == "") = false) (h2 : pyTruthy brand = true)
    (h4 : (catalog.products.filter (fun p => pyEqStrVal p.brand brand)).isEmpty = true) :
    select_candidates raw_product brand raw_shade catalog =
      SelectResult.early "brand_has_no_products" := by
  unfold select_candidates
  rw [if_neg (by rw [h1, h2]; simp), if_pos h4]

theorem ai_match_productT_early (raw_product : String) (brand : Val)
    (raw_shade : String) (catalog : Catalog) (oracle : Oracle) (s : String)
    (hsel : select_candidates raw_product brand raw_shade catalog =
      SelectResult.early s) :
    ai_match_productT raw_product brand raw_shade catalog oracle =
      ((none, 0, s), []) := by
  unfold ai_match_productT
  rw [hsel]

theorem item_result_fail_status (catalog : Catalog) (it : Dict) :
    (item_result catalog (fun _ => Except.error ()) it).1.2.2 =
      (if !(pyTruthy (it.getD "brand_standardized" Val.none)) then "no_brand"
       else if pyStrip (it.getStr "product_line_raw_examples") == "" then "empty_input"
       else if (catalog.products.filter (fun p => pyEqStrVal p.brand
           (it.getD "brand_standardized" Val.none))).isEmpty then "brand_has_no_products"
       else "api_error") := by
  simp only [item_result, bne]
  by_cases hb : pyTruthy (it.getD "brand_standardized" Val.none) = true
  · simp only [hb]
    by_cases hp : (pyStrip (it.getStr "product_line_raw_examples") == "") = true
    · simp only [hp]
      simp
    · have hp2 : (pyStrip (it.getStr "product_line_raw_examples") == "") = false := by
        cases hx : (pyStrip (it.getStr "product_line_raw_examples") == "")
        · rfl
        · exact absurd hx hp
      simp only [hp2]
      by_cases hq : (catalog.products.filter (fun p => pyEqStrVal p.brand
          (it.getD "brand_standardized" Val.none))).isEmpty = true
      · simp only [hq]
        rw [ai_match_productT_early _ _ _ _ _ _
          (select_candidates_no_products _ _ _ _ hp2 hb hq)]
        simp
      · have hq2 : (catalog.products.filter (fun p => pyEqStrVal p.brand
            (it.getD "brand_standardized" Val.none))).isEmpty = false := by
          cases hx : (catalog.products.filter (fun p => pyEqStrVal p.brand
              (it.getD "brand_standardized" Val.none))).isEmpty
          · rfl
          · exact absurd hx hq
        simp only [hq2]
        obtain ⟨cs, hsel⟩ := select_candidates_cands
          (pyStrip (it.getStr "product_line_raw_examples"))
          (it.getD "brand_standardized" Val.none)
          (pyStrip (it.getStr "shade_raw_examples")) catalog hp2 hb hq2
        rw [ai_match_productT_error _ _ _ _ _ _ hsel rfl]
        simp
  · have hb2 : pyTruthy (it.getD "brand_standardized" Val.none) = false := by
      cases hx : pyTruthy (it.getD "brand_standardized" Val.none)
      · rfl
      · exact absurd hx hb
    simp only [hb2]
    simp

/-- **C4** (confirmed): transport-failure containment.  An oracle exception
is caught at the adapter boundary: whenever candidate selection reaches the
oracle and the call raises, the adapter returns `(None, 0, "api_error")`.
At the pipeline level, with an oracle whose every call raises, the run still
processes every eligible record exactly once (no retry, no abort), and each
created record carries the status the per-record decision assigns — in
particular `"api_error"` whenever a brand is present, the raw product is
non-empty and the brand has catalog entries. -/
theorem spec_c4_transport_failure :
    (∀ (raw_product : String) (brand : Val) (raw_shade : String)
       (catalog : Catalog) (oracle : Oracle) (cs : List String),
       select_candidates raw_product brand raw_shade catalog =
         SelectResult.cands cs →
       oracle ⟨raw_product, brand, cs⟩ = Except.error () →
       ai_match_product raw_product brand raw_shade catalog oracle =
         (none, 0, "api_error")) ∧
    ∀ (data : List Dict) (catalog : Catalog) (prior : Option (List Dict))
      (f g : String),
      (standardize_products data catalog (fun _ => Except.error ()) prior f g).items_processed =
        data.filter (fun it =>
          !(((prior.getD []).map get_item_key).contains (get_item_key it))) ∧
      (standardize_products data catalog (fun _ => Except.error ()) prior f g).standardized.length =
        (prior.getD []).length +
          (standardize_products data catalog (fun _ => Except.error ()) prior f g).items_processed.length ∧
      (((standardize_products data catalog (fun _ => Except.error ()) prior f g).standardized.drop
          (prior.getD []).length).all
        (fun rec =>
          rec.getD "product_match_status" Val.none ==
            Val.str
              (if !(pyTruthy (rec.getD "brand_standardized" Val.none)) then "no_brand"
               else if pyStrip (rec.getStr "product_line_raw_examples") == "" then
                 "empty_input"
               else if (catalog.products.filter (fun p => pyEqStrVal p.brand
                   (rec.getD "brand_standardized" Val.none))).isEmpty then
                 "brand_has_no_products"
               else "api_error"))) = true := by
  constructor
  · intro raw_product brand raw_shade catalog oracle cs hsel hor
    unfold ai_match_product
    rw [ai_match_productT_error raw_product brand raw_shade catalog oracle cs hsel hor]
  · intro data catalog prior f g
    refine ⟨?_, ?_, ?_⟩
    · rw [standardize_products_def, run_items_items]
      rfl
    · rw [standardize_products_def, run_items_standardized, run_items_items]
      simp
    · rw [standardize_products_def, run_items_standardized]
      have hdrop : ((prior.getD [] : List Dict) ++
          ((data.filter (fun it => !(((prior.getD []).map get_item_key).contains
            (get_item_key it)))).map (annotate_item catalog (fun _ => Except.error ())))).drop
          (prior.getD []).length =
          (data.filter (fun it => !(((prior.getD []).map get_item_key).contains
            (get_item_key it)))).map (annotate_item catalog (fun _ => Except.error ())) :=
        List.drop_left _ _
      rw [hdrop, List.all_eq_true]
      intro rec hrec
      rw [List.mem_map] at hrec
      obtain ⟨it, _, hit⟩ := hrec
      rw [← hit]
      unfold annotate_item
      rw [annotate_getD_status, annotate_getD_brand, annotate_getStr_product,
        item_result_fail_status]
      exact beq_self_eq_true _

/-- Witness for C4: a failing oracle yields `api_error` for a concrete
record, and the one-record run still processes the record. -/
theorem spec_c4_witness :
    ai_match_product "raw p" (Val.str "B") "128" exCatalog exOracleFail =
      (none, 0, "api_error") ∧
    (standardize_products [exItem "v"] exCatalog exOracleFail none "o" "n").items_processed =
      [exItem "v"] := by
  have h := spec_c4_transport_failure
  constructor
  · exact h.1 "raw p" (Val.str "B") "128" exCatalog exOracleFail ["Line1"]
      (by decide) rfl
  · exact ((h.2 [exItem "v"] exCatalog none "o" "n").1).trans (by decide)

/-- **C2** (corrected): the claim said duplicate keys are one unit of work
even within the same input run — but line 179 computes the processed-key
filter once, before the loop, so two occurrences of the same key in one
input are each processed (two AnnotatedRecords, two oracle queries).
Amended: identical four fields give an identical RecordKey; across runs a
record whose key is in the loaded prior output is skipped entirely; the
accumulator is append-only (prior records unchanged, every persisted file a
prefix of the final accumulator) so no AnnotatedRecord is mutated after
creation; but within one run each occurrence of a duplicate key is
processed separately. -/
theorem spec_c2_amended :
    (∀ a b : Dict,
      pyStr (a.getD "canonical_video_id" (Val.str "")) =
        pyStr (b.getD "canonical_video_id" (Val.str "")) →
      pyStr (a.getD "brand_raw_examples" (Val.str "")) =
        pyStr (b.getD "brand_raw_examples" (Val.str "")) →
      pyStr (a.getD "product_line_raw_examples" (Val.str "")) =
        pyStr (b.getD "product_line_raw_examples" (Val.str "")) →
      pyStr (a.getD "shade_raw_examples" (Val.str "")) =
        pyStr (b.getD "shade_raw_examples" (Val.str "")) →
      get_item_key a = get_item_key b) ∧
    (∀ (prior data : List Dict) (catalog : Catalog) (oracle : Oracle) (f g : String),
      ((standardize_products data catalog oracle (some prior) f g).items_processed.all
        (fun it => !((prior.map get_item_key).contains (get_item_key it)))) = true ∧
      (standardize_products data catalog oracle (some prior) f g).standardized.take
        prior.length = prior) ∧
    ∀ (data : List Dict) (catalog : Catalog) (oracle : Oracle)
      (prior : Option (List Dict)) (f g : String) (i : Nat)
      (hi : i < (standardize_products data catalog oracle prior f g).saves.length),
      ((standardize_products data catalog oracle prior f g).saves.get
        ⟨i, hi⟩).standardizedFile <+:
        (standardize_products data catalog oracle prior f g).standardized := by
  refine ⟨?_, ?_, ?_⟩
  · intro a b h1 h2 h3 h4
    unfold get_item_key
    rw [h1, h2, h3, h4]
  · intro prior data catalog oracle f g
    constructor
    · rw [standardize_products_def, run_items_items, List.all_eq_true]
      intro it hit
      rw [List.nil_append, List.mem_filter] at hit
      exact hit.2
    · rw [standardize_products_def, run_items_standardized]
      exact List.take_left prior _
  · intro data catalog oracle prior f g i hi
    obtain ⟨sv, hsv, hmem⟩ : ∃ sv,
        (standardize_products data catalog oracle prior f g).saves.get ⟨i, hi⟩ = sv ∧
        sv ∈ (standardize_products data catalog oracle prior f g).saves :=
      ⟨_, rfl, List.get_mem _ i hi⟩
    rw [hsv]
    rw [standardize_products_def, run_items_saves, List.nil_append,
      List.mem_map] at hmem
    obtain ⟨j, _, hj⟩ := hmem
    rw [standardize_products_def, run_items_standardized, ← hj]
    show (prior.getD []) ++ _ <+: (prior.getD []) ++ _
    rw [ List.prefix_append_right_inj]
    exact ( List.take_prefix _ _).map _

/-- **C2** counterexample to the claim as stated: an input containing the
same record twice (identical four fields, hence identical key, not in any
prior output) yields two AnnotatedRecords for that one key and two oracle
queries in a single run. -/
theorem spec_c2_counterexample :
    get_item_key (exItem "v") = get_item_key (exItem "v") ∧
    ((standardize_products [exItem "v", exItem "v"] exCatalog exOracleOk
        none "o" "n").standardized.map get_item_key) =
      [get_item_key (exItem "v"), get_item_key (exItem "v")] ∧
    (standardize_products [exItem "v", exItem "v"] exCatalog exOracleOk
        none "o" "n").trace.length = 2 := by
  refine ⟨rfl, by decide, by decide⟩

/-- Witness for the amended C2 at concrete records and runs. -/
theorem spec_c2_witness :
    get_item_key (exItem "w") =
      get_item_key (List.append (exItem "w") [("extra", Val.int 5)]) ∧
    ((standardize_products [exItem "v1", exItem "v3"] exCatalog exOracleOk
        (some [exItem "v1"]) "o" "n").items_processed.all
      (fun it => !(([exItem "v1"].map get_item_key).contains (get_item_key it)))) = true ∧
    ((standardize_products [exItem "v1"] exCatalog exOracleOk none "o" "n").saves.get
      ⟨0, by decide⟩).standardizedFile <+:
      (standardize_products [exItem "v1"] exCatalog exOracleOk none "o" "n").standardized := by
  have h := spec_c2_amended
  exact ⟨h.1 _ _ (by decide) (by decide) (by decide) (by decide),
    (h.2.1 [exItem "v1"] [exItem "v1", exItem "v3"] exCatalog exOracleOk "o" "n").1,
    h.2.2 [exItem "v1"] exCatalog exOracleOk none "o" "n" 0 (by decide)⟩

theorem mem_bump_key (k : NMKey) :
    ∀ (l : List (NMKey × Nat)) (e : NMKey × Nat), e ∈ bump k l →
      e.1 ∈ l.map Prod.fst ∨ e.1 = k := by
  intro l
  induction l with
  | nil =>
    intro e he
    rw [bump, List.mem_singleton] at he
    rw [he]
    exact Or.inr rfl
  | cons kc rest ih =>
    intro e he
    rw [bump] at he
    by_cases hk : kc.1 = k
    · rw [if_pos hk] at he
      rcases List.mem_cons.mp he with h1 | h1
      · rw [h1]
        exact Or.inr hk
      · exact Or.inl (List.mem_cons_of_mem _ (List.mem_map_of_mem Prod.fst h1))
    · rw [if_neg hk] at he
      rcases List.mem_cons.mp he with h1 | h1
      · rw [h1]
        exact Or.inl (List.mem_cons_self _ _)
      · rcases ih e h1 with h2 | h2
        · exact Or.inl (List.mem_cons_of_mem _ h2)
        · exact Or.inr h2

/-- The aggregation key collected for an item (line 209). -/
def nmKeyOf (item : Dict) : NMKey :=
  (item.getD "brand_standardized" Val.none,
   pyStrip (item.getStr "product_line_raw_examples"),
   pyStrip (item.getStr "shade_raw_examples"),
   item.getD "product_match_status" (Val.str "unknown"))

/-- The filter condition of lines 202 and 208. -/
def nmCond (item : Dict) : Prop :=
  pyTruthy (item.getD "brand_standardized" Val.none) = true ∧
  pyTruthy (item.getD "product_line_standardized" Val.none) = false ∧
  ¬ pyStrip (item.getStr "product_line_raw_examples") = ""

theorem collect_non_matches_origin (L : List Dict) :
    ∀ e ∈ collect_non_matches L, ∃ item ∈ L, nmCond item ∧ e.1 = nmKeyOf item := by
  suffices haux : ∀ (M : List Dict) (acc : List (NMKey × Nat)) (e : NMKey × Nat),
      e ∈ M.foldl (fun acc item =>
        if pyTruthy (item.getD "brand_standardized" Val.none) &&
           !pyTruthy (item.getD "product_line_standardized" Val.none) then
          if pyStrip (item.getStr "product_line_raw_examples") != "" then
            bump (nmKeyOf item) acc
          else acc
        else acc) acc →
      e.1 ∈ acc.map Prod.fst ∨ ∃ item ∈ M, nmCond item ∧ e.1 = nmKeyOf item by
    intro e he
    have h0 := haux L [] e he
    rcases h0 with h1 | h1
    · simp at h1
    · exact h1
  intro M
  induction M with
  | nil =>
    intro acc e he
    exact Or.inl (List.mem_map_of_mem Prod.fst he)
  | cons item rest ih =>
    intro acc e he
    rw [List.foldl_cons] at he
    rcases ih _ e he with h1 | h1
    · by_cases hA : (pyTruthy (item.getD "brand_standardized" Val.none) &&
          !pyTruthy (item.getD "product_line_standardized" Val.none)) = true
      · rw [if_pos hA] at h1
        by_cases hB : (pyStrip (item.getStr "product_line_raw_examples") != "") = true
        · rw [if_pos hB] at h1
          rw [List.mem_map] at h1
          obtain ⟨e2, he2, he2e⟩ := h1
          rcases mem_bump_key _ acc e2 he2 with h2 | h2
          · rw [he2e] at h2
            exact Or.inl h2
          · refine Or.inr ⟨item, List.mem_cons_self _ _, ?_, by rw [← he2e]; exact h2⟩
            rw [Bool.and_eq_true] at hA
            refine ⟨hA.1, ?_, ?_⟩
            · cases hx : pyTruthy (item.getD "product_line_standardized" Val.none)
              · rfl
              · rw [hx] at hA
                exact absurd hA.2 (by decide)
            · rw [bne_iff_ne] at hB
              exact hB
        · rw [if_neg hB] at h1
          exact Or.inl h1
      · rw [if_neg hA] at h1
        exact Or.inl h1
    · obtain ⟨it2, hit2, hc, hk⟩ := h1
      exact Or.inr ⟨it2, List.mem_cons_of_mem _ hit2, hc, hk⟩

theorem mem_insertDesc (x : NMKey × Nat) :
    ∀ (l : List (NMKey × Nat)) (a : NMKey × Nat),
      a ∈ insertDesc x l ↔ a = x ∨ a ∈ l := by
  intro l
  induction l with
  | nil =>
    intro a
    rw [insertDesc]
    simp
  | cons y ys ih =>
    intro a
    rw [insertDesc]
    by_cases hy : y.2 < x.2
    · rw [if_pos hy]
      simp [List.mem_cons]
    · rw [if_neg hy]
      rw [List.mem_cons, ih a, List.mem_cons]
      tauto

theorem mem_sortDesc :
    ∀ (l : List (NMKey × Nat)) (a : NMKey × Nat), a ∈ sortDesc l ↔ a ∈ l := by
  intro l
  induction l with
  | nil => intro a; rfl
  | cons x xs ih =>
    intro a
    rw [sortDesc, mem_insertDesc, ih a, List.mem_cons]

theorem select_candidates_early_imp (raw_product : String) (brand : Val)
    (raw_shade : String) (catalog : Catalog) (s : String)
    (h1 : (raw_product == "") = false) (h2 : pyTruthy brand = true)
    (hsel : select_candidates raw_product brand raw_shade catalog =
      SelectResult.early s) :
    s = "brand_has_no_products" := by
  unfold select_candidates at hsel
  rw [if_neg (by rw [h1, h2]; simp)] at hsel
  by_cases hq : (catalog.products.filter (fun p => pyEqStrVal p.brand brand)).isEmpty = true
  · rw [if_pos hq] at hsel
    injection hsel with h3
    exact h3.symm
  · rw [if_neg hq] at hsel
    exact absurd hsel (by simp)

theorem ai_match_productT_ok_status (raw_product : String) (brand : Val)
    (raw_shade : String) (catalog : Catalog) (oracle : Oracle) (cs : List String)
    (response : String)
    (hsel : select_candidates raw_product brand raw_shade catalog =
      SelectResult.cands cs)
    (hor : oracle ⟨raw_product, brand, cs⟩ = Except.ok response) :
    (ai_match_productT raw_product brand raw_shade catalog oracle).1.2.2 =
      (if pyStrip response == "NONE" then "ai_returned_none"
       else if !((cs : List String).contains (pyStrip response)) then "ai_hallucinated"
       else "success") := by
  rw [ai_match_productT_ok raw_product brand raw_shade catalog oracle cs response hsel hor]
  by_cases hN : (pyStrip response == "NONE") = true
  · rw [if_pos hN, if_pos hN]
  · rw [if_neg hN, if_neg hN]
    by_cases hC : (!((cs : List String).contains (pyStrip response))) = true
    · rw [if_pos hC, if_pos hC]
    · rw [if_neg hC, if_neg hC]

theorem item_result_status_not_early (catalog : Catalog) (oracle : Oracle) (it : Dict)
    (hb : pyTruthy (it.getD "brand_standardized" Val.none) = true)
    (hp : ¬ pyStrip (it.getStr "product_line_raw_examples") = "") :
    ¬ (item_result catalog oracle it).1.2.2 = "no_brand" ∧
    ¬ (item_result catalog oracle it).1.2.2 = "empty_input" := by
  have hp2 : (pyStrip (it.getStr "product_line_raw_examples") == "") = false :=
    beq_eq_false_iff_ne.mpr hp
  simp only [item_result, bne, hb, hp2, Bool.not_false, Bool.true_and, if_true]
  cases hsel : select_candidates (pyStrip (it.getStr "product_line_raw_examples"))
      (it.getD "brand_standardized" Val.none)
      (pyStrip (it.getStr "shade_raw_examples")) catalog with
  | early s =>
    rw [ai_match_productT_early _ _ _ _ _ _ hsel]
    have hs := select_candidates_early_imp _ _ _ _ s hp2 hb hsel
    rw [hs]
    exact ⟨by decide, by decide⟩
  | cands cs =>
    cases hor : oracle ⟨pyStrip (it.getStr "product_line_raw_examples"),
        it.getD "brand_standardized" Val.none, cs⟩ with
    | error e =>
      have hst : (ai_match_productT (pyStrip (it.getStr "product_line_raw_examples"))
          (it.getD "brand_standardized" Val.none)
          (pyStrip (it.getStr "shade_raw_examples")) catalog oracle).1.2.2 =
          "api_error" := by
        rw [ai_match_productT_error _ _ _ _ _ _ hsel (by rw [hor])]
      rw [hst]
      exact ⟨by decide, by decide⟩
    | ok response =>
      rw [ai_match_productT_ok_status _ _ _ _ _ _ response hsel hor]
      by_cases hN : (pyStrip response == "NONE") = true
      · rw [if_pos hN]
        exact ⟨by decide, by decide⟩
      · rw [if_neg hN]
        by_cases hC : (!((cs : List String).contains (pyStrip response))) = true
        · rw [if_pos hC]
          exact ⟨by decide, by decide⟩
        · rw [if_neg hC]
          exact ⟨by decide, by decide⟩

theorem nonMatchRows_origin (L : List Dict) (row : NonMatchRow)
    (hrow : row ∈ nonMatchRows (collect_non_matches L)) :
    ∃ item ∈ L, nmCond item ∧
      row.brand = item.getD "brand_standardized" Val.none ∧
      row.product_raw = pyStrip (item.getStr "product_line_raw_examples") ∧
      row.shade_raw = pyStrip (item.getStr "shade_raw_examples") ∧
      row.reason = item.getD "product_match_status" (Val.str "unknown") := by
  unfold nonMatchRows at hrow
  rw [List.mem_map] at hrow
  obtain ⟨kc, hkc, hkcrow⟩ := hrow
  rw [mem_sortDesc] at hkc
  obtain ⟨item, hitem, hcond, hkey⟩ := collect_non_matches_origin L kc hkc
  refine ⟨item, hitem, hcond, ?_, ?_, ?_, ?_⟩
  · rw [← hkcrow]
    show kc.1.1 = _
    rw [hkey]
    rfl
  · rw [← hkcrow]
    show kc.1.2.1 = _
    rw [hkey]
    rfl
  · rw [← hkcrow]
    show kc.1.2.2.1 = _
    rw [hkey]
    rfl
  · rw [← hkcrow]
    show kc.1.2.2.2 = _
    rw [hkey]
    rfl

/-- **C9** (confirmed, implicit): every row of the persisted non-match
report originates in a stored record whose `brand_standardized` is truthy,
whose `product_line_standardized` is falsy, and whose stripped raw product
is non-empty, and the row's fields are exactly that record's; consequently,
on a fresh run no report row ever carries reason `no_brand` or
`empty_input`, even though such records are unresolved non-matches. -/
theorem spec_c9_non_match_exclusion :
    (∀ (L : List Dict) (row : NonMatchRow),
      row ∈ nonMatchRows (collect_non_matches L) →
      ∃ item ∈ L,
        pyTruthy (item.getD "brand_standardized" Val.none) = true ∧
        pyTruthy (item.getD "product_line_standardized" Val.none) = false ∧
        ¬ pyStrip (item.getStr "product_line_raw_examples") = "" ∧
        row.brand = item.getD "brand_standardized" Val.none ∧
        row.product_raw = pyStrip (item.getStr "product_line_raw_examples") ∧
        row.shade_raw = pyStrip (item.getStr "shade_raw_examples") ∧
        row.reason = item.getD "product_match_status" (Val.str "unknown")) ∧
    ∀ (data : List Dict) (catalog : Catalog) (oracle : Oracle) (f g : String),
      ((standardize_products data catalog oracle none f g).saves.all (fun sv =>
        (sv.nonMatchFile.getD []).all (fun row =>
          !(row.reason == Val.str "no_brand") &&
          !(row.reason == Val.str "empty_input")))) = true := by
  constructor
  · intro L row hrow
    obtain ⟨item, hitem, hcond, hfields⟩ := nonMatchRows_origin L row hrow
    exact ⟨item, hitem, hcond.1, hcond.2.1, hcond.2.2, hfields⟩
  · intro data catalog oracle f g
    rw [standardize_products_def, run_items_saves, List.all_eq_true]
    intro sv hsv
    rcases List.mem_append.mp hsv with h0 | h0
    · exact absurd h0 (List.not_mem_nil sv)
    · rw [List.mem_map] at h0
      obtain ⟨j, _, hj⟩ := h0
      rw [← hj]
      show ((save_all_files f g _).nonMatchFile.getD []).all _ = true
      rw [save_all_files]
      by_cases hemp : (collect_non_matches
          (((none : Option (List Dict)).getD []) ++
            (((data.filter (fun it => !((((none : Option (List Dict)).getD []).map
              get_item_key).contains (get_item_key it)))).take (j + 1)).map
              (annotate_item catalog oracle)))).isEmpty = true
      · rw [if_pos hemp]
        rfl
      · rw [if_neg hemp]
        show (List.all (nonMatchRows _) _) = true
        rw [List.all_eq_true]
        intro row hrowmem
        obtain ⟨item, hitem, hcond, hbrand, hprod, hshade, hreason⟩ :=
          nonMatchRows_origin _ row hrowmem
        rcases List.mem_append.mp hitem with h1 | h1
        · exact absurd h1 (List.not_mem_nil item)
        · rw [List.mem_map] at h1
          obtain ⟨it0, _, hit0⟩ := h1
          have hb : pyTruthy (it0.getD "brand_standardized" Val.none) = true := by
            rw [← annotate_getD_brand it0 (item_result catalog oracle it0).1]
            show pyTruthy ((annotate_item catalog oracle it0).getD
              "brand_standardized" Val.none) = true
            rw [hit0]
            exact hcond.1
          have hp : ¬ pyStrip ((it0.getStr "product_line_raw_examples")) = "" := by
            rw [← annotate_getStr_product it0 (item_result catalog oracle it0).1]
            show ¬ pyStrip ((annotate_item catalog oracle it0).getStr
              "product_line_raw_examples") = ""
            rw [hit0]
            exact hcond.2.2
          have hstat : row.reason = Val.str (item_result catalog oracle it0).1.2.2 := by
            rw [hreason, ← hit0]
            show (annotate_item catalog oracle it0).getD
              "product_match_status" (Val.str "unknown") = _
            unfold annotate_item
            rw [Dict.getD, annotate_get?_status]
            rfl
          obtain ⟨hs1, hs2⟩ := item_result_status_not_early catalog oracle it0 hb hp
          rw [hstat]
          have hv1 : (Val.str (item_result catalog oracle it0).1.2.2 ==
              Val.str "no_brand") = false := by
            rw [beq_eq_false_iff_ne]
            intro hv
            exact hs1 (Val.str.inj hv)
          have hv2 : (Val.str (item_result catalog oracle it0).1.2.2 ==
              Val.str "empty_input") = false := by
            rw [beq_eq_false_iff_ne]
            intro hv
            exact hs2 (Val.str.inj hv)
          rw [hv1, hv2]
          rfl

/-- Witness for C9: the single report row of a one-record accumulator
originates in its (brand-truthy, line-falsy, product-non-empty) record, and
a concrete fresh run's saves contain no `no_brand`/`empty_input` rows. -/
theorem spec_c9_witness :
    (∃ item ∈ exNonMatchList,
      pyTruthy (item.getD "brand_standardized" Val.none) = true ∧
      pyTruthy (item.getD "product_line_standardized" Val.none) = false ∧
      ¬ pyStrip (item.getStr "product_line_raw_examples") = "" ∧
      (⟨Val.str "B", "p", "", Val.str "ai_returned_none", 1, none⟩ : NonMatchRow).brand =
        item.getD "brand_standardized" Val.none ∧
      (⟨Val.str "B", "p", "", Val.str "ai_returned_none", 1, none⟩ : NonMatchRow).product_raw =
        pyStrip (item.getStr "product_line_raw_examples") ∧
      (⟨Val.str "B", "p", "", Val.str "ai_returned_none", 1, none⟩ : NonMatchRow).shade_raw =
        pyStrip (item.getStr "shade_raw_examples") ∧
      (⟨Val.str "B", "p", "", Val.str "ai_returned_none", 1, none⟩ : NonMatchRow).reason =
        item.getD "product_match_status" (Val.str "unknown")) ∧
    ((standardize_products [exItem "v"] exCatalog exOracleFail none "o" "n").saves.all
      (fun sv => (sv.nonMatchFile.getD []).all (fun row =>
        !(row.reason == Val.str "no_brand") &&
        !(row.reason == Val.str "empty_input")))) = true :=
  ⟨spec_c9_non_match_exclusion.1 exNonMatchList
      ⟨Val.str "B", "p", "", Val.str "ai_returned_none", 1, none⟩ (by decide),
    spec_c9_non_match_exclusion.2 [exItem "v"] exCatalog exOracleFail "o" "n"⟩
